import Mathlib

/-!
Shallow embedding of the core logic of `src/TebraChargeEntry.py`
(Tebra charge entry tool): charge grouping, entity resolution with a
per-run cache, payload construction, error classification, and the
per-row result write-back of `process_excel_data`.

Modelling conventions:
* A spreadsheet cell read with `pd.read_excel(..., dtype=str)` is either a
  string or the pandas missing value NaN; we model it as `Option String`
  (`none` = NaN).  Python's `str()` of NaN is the string `"nan"`, and
  `pd.isna` is `Option.isNone`.
* Remote SOAP responses are pure data supplied by an `Env` record (the
  external collaborator); transport faults and error/security flags on
  the two read queries are not modelled (the claims under study concern
  non-faulting runs).  `pd.to_datetime` is likewise an oracle in `Env`.
* Python floats are modelled with exact rationals (`ℚ`).
* `st.session_state` (the per-run cache) is an association list from the
  string cache keys the code builds to the cached `Option Int` outcome;
  insertion is `cons`, lookup takes the most recent binding, which is
  observationally the same as dict assignment.
-/

/-- A pandas cell: `none` models NaN (a missing value). -/
abbrev Cell := Option String

/-- Python `str(cell)`: a string is itself, NaN prints as `"nan"`. -/
def pyStr (c : Cell) : String := Option.getD c "nan"

/-- `pd.isna` on a cell. -/
def isna (c : Cell) : Bool := Option.isNone c

/-- Python `str(val if pd.notna(val) else "")` as used in `clean_val`. -/
def cellStrOrEmpty (c : Cell) : String := Option.getD c ""

/-- Substring test on char lists: does `pat` occur inside `l`?  Models the
Python `pat in s` operator (note `"" in s` is `True`). -/
def listContains (l pat : List Char) : Bool :=
  match l with
  | [] => pat.isEmpty
  | _ :: rest => pat.isPrefixOf l || listContains rest pat

/-- Python `pat in s` substring membership. -/
def strContains (s pat : String) : Bool := listContains s.data pat.data

/-- Python `s.strip()` (whitespace at both ends), structural on the
character list so that concrete instances reduce in the kernel. -/
def pyTrim (s : String) : String :=
  ⟨((s.data.dropWhile Char.isWhitespace).reverse.dropWhile Char.isWhitespace).reverse⟩

/-- ASCII lower-casing of one character. -/
def lowerChar (c : Char) : Char :=
  if 65 ≤ c.toNat ∧ c.toNat ≤ 90 then Char.ofNat (c.toNat + 32) else c

/-- ASCII upper-casing of one character. -/
def upperChar (c : Char) : Char :=
  if 97 ≤ c.toNat ∧ c.toNat ≤ 122 then Char.ofNat (c.toNat - 32) else c

/-- Python `s.lower()` (ASCII range). -/
def pyLower (s : String) : String := ⟨s.data.map lowerChar⟩

/-- Python `s.upper()` (ASCII range). -/
def pyUpper (s : String) : String := ⟨s.data.map upperChar⟩

/-- Python `s.startswith(p)`. -/
def pyStartsWith (s p : String) : Bool := p.data.isPrefixOf s.data

/-- Python `s.endswith(p)`. -/
def pyEndsWith (s p : String) : Bool := p.data.isSuffixOf s.data

/-- The first `n` characters of `s`. -/
def pyTake (s : String) (n : Nat) : String := ⟨s.data.take n⟩

/-- `s` without its first `n` characters. -/
def pyDrop (s : String) (n : Nat) : String := ⟨s.data.drop n⟩

/-- `s` without its last `n` characters (Python `s[:-n]`). -/
def pyDropRight (s : String) (n : Nat) : String := ⟨s.data.take (s.data.length - n)⟩

/-- Fuelled replacement of every occurrence of a non-empty pattern. -/
def replaceAux (pat rep : List Char) : Nat → List Char → List Char
  | 0, l => l
  | fuel + 1, l =>
    if pat ≠ [] ∧ pat.isPrefixOf l then rep ++ replaceAux pat rep fuel (l.drop pat.length)
    else
      match l with
      | [] => []
      | c :: rest => c :: replaceAux pat rep fuel rest

/-- Python `s.replace(pat, rep)` for a non-empty `pat`. -/
def pyReplace (s pat rep : String) : String :=
  ⟨replaceAux pat.data rep.data (s.data.length + 1) s.data⟩

/-- Fuelled whitespace tokenizer behind `pySplit`. -/
def wordsAux : Nat → List Char → List String
  | 0, _ => []
  | fuel + 1, l =>
    match l.dropWhile Char.isWhitespace with
    | [] => []
    | l1 =>
      ⟨l1.takeWhile (fun c => ¬ c.isWhitespace)⟩ ::
        wordsAux fuel (l1.dropWhile (fun c => ¬ c.isWhitespace))

/-- Python `"sep".join(parts)` / `String.intercalate`. -/
def joinSep (sep : String) : List String → String
  | [] => ""
  | [a] => a
  | a :: rest => a ++ sep ++ joinSep sep rest

/-- Python `s.split()` with no argument: split on whitespace runs, dropping
empty pieces. -/
def pySplit (s : String) : List String :=
  wordsAux (s.data.length + 1) s.data

/-- An exact model of a Python float as an unreduced fraction; all the
fractions the code manipulates have positive denominators.  Comparisons
are by cross-multiplication, which agrees with the rational order for
positive denominators. -/
structure PyRat where
  num : Int
  den : Nat
deriving DecidableEq

/-- Strict order on model fractions (cross-multiplication). -/
def PyRat.lt (a b : PyRat) : Bool := a.num * (b.den : Int) < b.num * (a.den : Int)

/-- Non-strict order on model fractions (cross-multiplication). -/
def PyRat.le (a b : PyRat) : Bool := a.num * (b.den : Int) ≤ b.num * (a.den : Int)

/-- The rational value of a model fraction. -/
def PyRat.toRat (x : PyRat) : ℚ := (x.num : ℚ) / (x.den : ℚ)

/-- Python `s.isdigit()` (restricted to ASCII digits, which is all the
input format uses). -/
def pyIsdigit (s : String) : Bool := s ≠ "" && s.data.all Char.isDigit

/-- Decimal value of a digit list. -/
def digitsToNat (l : List Char) : Nat :=
  l.foldl (fun a c => a * 10 + (c.toNat - 48)) 0

/-- Model of Python `int(s)` on a string: optional sign then decimal
digits, surrounding whitespace ignored; anything else raises
(= `none`). -/
def pyInt (s : String) : Option Int :=
  let t := pyTrim s
  let p : Int × List Char :=
    match t.data with
    | '+' :: rest => (1, rest)
    | '-' :: rest => (-1, rest)
    | l => (1, l)
  if p.2 ≠ [] ∧ p.2.all Char.isDigit then some (p.1 * (digitsToNat p.2 : Int)) else none

/-- Model of Python `float(s)` on a string (an exact fraction): optional
sign, integer digits, optional fractional digits.  Exotic forms
(exponents, `inf`, `nan`) are out of scope of the inputs modelled. -/
def pyFloat (s : String) : Option PyRat :=
  let t := pyTrim s
  let p : Int × List Char :=
    match t.data with
    | '+' :: rest => (1, rest)
    | '-' :: rest => (-1, rest)
    | l => (1, l)
  let ip := p.2.takeWhile Char.isDigit
  let rest := p.2.dropWhile Char.isDigit
  match rest with
  | [] => if ip ≠ [] then some ⟨p.1 * (digitsToNat ip : Int), 1⟩ else none
  | '.' :: fp =>
    if fp.all Char.isDigit ∧ (ip ≠ [] ∨ fp ≠ []) then
      some ⟨p.1 * ((digitsToNat ip * 10 ^ fp.length + digitsToNat fp : Nat) : Int),
            10 ^ fp.length⟩
    else none
  | _ => none

/-- A duck-typed SOAP flag field: the vendor service returns either a real
boolean or the strings "true"/"false" (the code checks both). -/
inductive PyFlag where
  | b (b : Bool)
  | s (s : String)
deriving DecidableEq

/-- The truthiness test the code applies to `Active` / `IsPrimaryCase`
fields: `x is not None and ((isinstance(x, bool) and x) or
(isinstance(x, str) and x.lower() == 'true'))`. -/
def pyFlagTrue : Option PyFlag → Bool
  | some (.b b) => b
  | some (.s s) => pyLower s == "true"
  | none => false

/-- Python truthiness of an optional integer id (`if not x` catches both
`None` and `0`). -/
def intTruthy : Option Int → Bool
  | some i => i ≠ 0
  | none => false

-- ### Remote data records (fields the code reads from SOAP responses)

/-- One `ProviderData` record from `GetProviders`. -/
structure ProviderData where
  ID : Option Int
  FullName : Option String
  Active : Option PyFlag
deriving DecidableEq

/-- One `ServiceLocationData` record from `GetServiceLocations`. -/
structure LocationData where
  ID : Option Int
  Name : Option String
deriving DecidableEq

/-- One `PatientCaseData` record from `GetPatient`. -/
structure CaseData where
  PatientCaseID : Option Int
  IsPrimaryCase : Option PyFlag
deriving DecidableEq

/-- Result of `pd.to_datetime` on a parseable input: the two formatted
renderings the code extracts (`%Y-%m-%d` for the grouping key and
`%Y-%m-%dT%H:%M:%S` for the API). -/
structure PyDate where
  ymd : String
  api : String
deriving DecidableEq

/-- Response of `CreateEncounter`, flattened to the fields the code
inspects: the error flag/message, the authorization flag/result, the
optional `EncounterID`, and the serialized form used by the
unknown-response branch. -/
structure ApiResp where
  IsError : Bool
  ErrorMessage : String
  Authorized : Bool
  SecurityResult : String
  EncounterID : Option Int
  serialized : String
deriving DecidableEq

-- ### Input rows and request payloads

/-- One input spreadsheet row (the columns of `EXPECTED_COLUMNS` that the
processing logic reads). -/
structure Row where
  patientId : Cell
  fromDate : Cell
  throughDate : Cell
  renderingProvider : Cell
  schedulingProvider : Cell
  location : Cell
  placeOfService : Cell
  encounterMode : Cell
  procedures : Cell
  mod1 : Cell
  mod2 : Cell
  units : Cell
  diag1 : Cell
  diag2 : Cell
  diag3 : Cell
  diag4 : Cell
  batchNumber : Cell
deriving DecidableEq

/-- `ns0:EncounterPlaceOfService` payload. -/
structure PosPayload where
  PlaceOfServiceCode : String
  PlaceOfServiceName : String
deriving DecidableEq

/-- `ns0:ServiceLineReq` payload. -/
structure ServiceLineReq where
  ProcedureCode : String
  Units : PyRat
  ServiceStartDate : String
  ServiceEndDate : String
  DiagnosisCode1 : String
  ProcedureModifier1 : Option String
  ProcedureModifier2 : Option String
  DiagnosisCode2 : Option String
  DiagnosisCode3 : Option String
  DiagnosisCode4 : Option String
deriving DecidableEq

/-- `ns0:EncounterCreate` payload (identifier sub-payloads flattened to
the ids they carry). -/
structure EncounterPayload where
  PatientID : Int
  RenderingProviderID : Int
  LocationID : Int
  PlaceOfService : PosPayload
  ServiceStartDate : String
  ServiceEndDate : String
  ServiceLines : List ServiceLineReq
  PracticeID : Int
  EncounterStatus : String
  CaseID : Int
  SchedulingProviderID : Option Int
  BatchNumber : Option String
deriving DecidableEq

/-- The external collaborator: remote query results and the pandas date
parser, all pure.  `getProvidersExact practice name` is the exact-filter
`GetProviders` query, `getProvidersBroad practice` the practice-wide one. -/
structure Env where
  parseDate : String → Option PyDate
  getPatientCases : Int → List CaseData
  getProvidersExact : Int → String → List ProviderData
  getProvidersBroad : Int → List ProviderData
  getLocations : Int → List LocationData
  createEncounter : EncounterPayload → ApiResp

/-- `format_datetime_for_api`: `None` for NaN/missing, else the
`%Y-%m-%dT%H:%M:%S` rendering, `None` again if parsing raises. -/
def format_datetime_for_api (env : Env) (c : Cell) : Option String :=
  match c with
  | none => none
  | some s =>
    match env.parseDate s with
    | some d => some d.api
    | none => none

-- ### The per-run cache (st.session_state)

/-- The run-scoped cache: cache-key string to cached outcome (which may
itself be `none` = a cached NotFound). -/
abbrev Cache := List (String × Option Int)

/-- Dictionary lookup (`key in st.session_state` / read). -/
def cacheLookup (c : Cache) (k : String) : Option (Option Int) :=
  match c.find? (fun p => p.1 == k) with
  | some p => some p.2
  | none => none

/-- Dictionary write (`st.session_state[key] = v`). -/
def cacheInsert (c : Cache) (k : String) (v : Option Int) : Cache := (k, v) :: c

-- ### Place of service

/-- `POS_CODE_MAP`: normalized name, code, display name. -/
def POS_CODE_MAP : List (String × String × String) :=
  [("OFFICE", "11", "Office"),
   ("IN OFFICE", "11", "Office"),
   ("INOFFICE", "11", "Office"),
   ("TELEHEALTH", "10", "Telehealth Provided in Patient’s Home"),
   ("TELEHEALTH OFFICE", "02", "Telehealth Provided Other than in Patient’s Home")]

/-- Lookup of an upper-cased POS value in `POS_CODE_MAP`. -/
def posMapLookup (k : String) : Option (String × String) :=
  match POS_CODE_MAP.find? (fun e => e.1 == k) with
  | some e => some e.2
  | none => none

/-- The fallback display name for a bare numeric code: the name of the
first map entry with that code, else the raw input. -/
def posNameForCode (code fallback : String) : String :=
  match POS_CODE_MAP.find? (fun e => e.2.1 == code) with
  | some e => some e.2.2 |>.getD fallback
  | none => fallback

/-- `create_place_of_service_payload`: blank/NaN gives no payload; else a
case-insensitive map lookup; else a bare 1-2 digit code is accepted
as-is; anything else fails (`None`). -/
def create_place_of_service_payload (posValExcel : Cell) : Option PosPayload :=
  if isna posValExcel || pyTrim (pyStr posValExcel) == "" then none
  else
    let normPosInput := pyTrim (pyStr posValExcel)
    let normPosUpper := pyUpper normPosInput
    match posMapLookup normPosUpper with
    | some cn => some ⟨cn.1, cn.2⟩
    | none =>
      if pyIsdigit normPosInput && normPosInput.length ≤ 2 then
        some ⟨normPosInput, posNameForCode normPosInput normPosInput⟩
      else none

-- ### Service line payload

/-- `clean_val` inside `create_service_line_payload`: stringify (NaN to
""), trim; for modifiers strip a trailing ".0" float artifact and
truncate to 2 characters; a blank or literal "nan" result is `None`. -/
def clean_val (val : Cell) (isModifier : Bool) : Option String :=
  let sVal := pyTrim (cellStrOrEmpty val)
  let sVal :=
    if isModifier then
      let sVal := if pyEndsWith sVal ".0" then pyDropRight sVal 2 else sVal
      if sVal ≠ "" ∧ sVal.data.length > 2 then pyTake sVal 2 else sVal
    else sVal
  if sVal ≠ "" ∧ pyLower sVal ≠ "nan" then some sVal else none

/-- `create_service_line_payload`: requires a non-blank procedure code, a
present and positive numeric `Units`, and a diagnosis 1 surviving
cleaning; modifiers and diagnoses 2-4 are cleaned and included when
present.  Any failed requirement yields `None` (line not created). -/
def create_service_line_payload (sld : Row) (startDtApi endDtApi : String) :
    Option ServiceLineReq :=
  let pc := pyTrim (pyStr sld.procedures)
  let u := sld.units
  let d1Val := sld.diag1
  if pc = "" then none
  else if isna u || pyTrim (pyStr u) == "" then none
  else if isna d1Val || pyTrim (pyStr d1Val) == "" then none
  else
    match pyFloat (pyStr u) with
    | none => none
    | some uf =>
      if PyRat.le uf ⟨0, 1⟩ then none
      else
        let m1 := clean_val sld.mod1 true
        let m2 := clean_val sld.mod2 true
        match clean_val d1Val false with
        | none => none
        | some d1Cleaned =>
          some { ProcedureCode := pc, Units := uf,
                 ServiceStartDate := startDtApi, ServiceEndDate := endDtApi,
                 DiagnosisCode1 := d1Cleaned,
                 ProcedureModifier1 := m1, ProcedureModifier2 := m2,
                 DiagnosisCode2 := clean_val sld.diag2 false,
                 DiagnosisCode3 := clean_val sld.diag3 false,
                 DiagnosisCode4 := clean_val sld.diag4 false }

-- ### XML error classification (parse_and_simplify_tebra_xml_error)

/-- Suffix of `l` after the first occurrence of `pat`; `none` when `pat`
does not occur. -/
def splitAfterFirst : List Char → List Char → Option (List Char)
  | l@(_ :: rest), pat =>
    if pat.isPrefixOf l then some (l.drop pat.length) else splitAfterFirst rest pat
  | [], pat => if pat.isEmpty then some [] else none

/-- Split `l` at the first occurrence of `pat` into the part before and
the part after the occurrence. -/
def takeUntilPat : List Char → List Char → Option (List Char × List Char)
  | l@(c :: rest), pat =>
    if pat.isPrefixOf l then some ([], l.drop pat.length)
    else
      match takeUntilPat rest pat with
      | some p => some (c :: p.1, p.2)
      | none => none
  | [], pat => if pat.isEmpty then some ([], []) else none

/-- Fuelled scan for `re.findall("<open>(.*?)</close>", s, re.DOTALL)`:
repeatedly take the text between the next `opn` and the nearest following
`cls`. -/
def findAllBetweenAux (opn cls : List Char) : Nat → List Char → List (List Char)
  | 0, _ => []
  | fuel + 1, l =>
    match splitAfterFirst l opn with
    | none => []
    | some r =>
      match takeUntilPat r cls with
      | none => []
      | some p => p.1 :: findAllBetweenAux opn cls fuel p.2

/-- All non-overlapping lazy matches of `opn(.*?)cls` with DOTALL. -/
def findAllBetween (s opn cls : String) : List String :=
  (findAllBetweenAux opn.data cls.data (s.length + 1) s.data).map (fun l => String.mk l)

/-- `re.search("opn([^<]+)cls", s)`: first occurrence of `opn` followed by
a non-empty run of non-tag characters and then `cls`; scans on when a
candidate occurrence is not followed by the closing literal. -/
def searchTagValAux (opn cls : List Char) : Nat → List Char → Option String
  | 0, _ => none
  | fuel + 1, l =>
    match splitAfterFirst l opn with
    | none => none
    | some r =>
      let v := r.takeWhile (fun c => c ≠ '<')
      let after := r.dropWhile (fun c => c ≠ '<')
      if v ≠ [] ∧ cls.isPrefixOf after then some (String.mk v)
      else searchTagValAux opn cls fuel r

/-- String-level wrapper for `searchTagValAux`. -/
def searchTagVal (s opn cls : String) : Option String :=
  searchTagValAux opn.data cls.data (s.length + 1) s.data

/-- Fuelled `re.finditer` for the diagnosis/modifier sub-error patterns
`tag(\d)>([^<]+?)<err id="\d+">([^<]+)</err>`: returns the captured
(field digit, field value, error message) triples in match order. -/
def tagErrMatchesAux (tag : List Char) : Nat → List Char → List (Char × String × String)
  | 0, _ => []
  | fuel + 1, l =>
    match splitAfterFirst l tag with
    | none => []
    | some r1 =>
      match r1 with
      | d :: '>' :: r2 =>
        if d.isDigit then
          let v := r2.takeWhile (fun c => c ≠ '<')
          let r3 := r2.dropWhile (fun c => c ≠ '<')
          if v ≠ [] ∧ ("<err id=\"".data).isPrefixOf r3 then
            let r4 := r3.drop 9
            let n := r4.takeWhile Char.isDigit
            let r5 := r4.dropWhile Char.isDigit
            if n ≠ [] ∧ ("\">".data).isPrefixOf r5 then
              let r6 := r5.drop 2
              let m := r6.takeWhile (fun c => c ≠ '<')
              let r7 := r6.dropWhile (fun c => c ≠ '<')
              if m ≠ [] ∧ ("</err>".data).isPrefixOf r7 then
                (d, String.mk v, String.mk m) :: tagErrMatchesAux tag fuel (r7.drop 6)
              else tagErrMatchesAux tag fuel r1
            else tagErrMatchesAux tag fuel r1
          else tagErrMatchesAux tag fuel r1
        else tagErrMatchesAux tag fuel r1
      | _ => tagErrMatchesAux tag fuel r1

/-- String-level wrapper for `tagErrMatchesAux`. -/
def tagErrMatches (s tag : String) : List (Char × String × String) :=
  tagErrMatchesAux tag.data (s.length + 1) s.data

/-- Lazy capture of `(.*?)</err>` without DOTALL: the characters up to the
first `</err>`, failing if a newline intervenes. -/
def takeCloseNoNewline : List Char → Option (List Char)
  | [] => none
  | l@(c :: rest) =>
    if ("</err>".data).isPrefixOf l then some []
    else if c = '\n' then none
    else (takeCloseNoNewline rest).map (fun v => c :: v)

/-- The `takeCloseNoNewline` check also applies at the very start of the
remainder (an empty capture is allowed by `.*?`). -/
def takeCloseNoNewline' (l : List Char) : Option (List Char) :=
  if ("</err>".data).isPrefixOf l then some [] else takeCloseNoNewline l

/-- Fuelled `re.search('<err id="6100">(.*?)</err>', s)`. -/
def searchErr6100Aux : Nat → List Char → Option String
  | 0, _ => none
  | fuel + 1, l =>
    match splitAfterFirst l ("<err id=\"6100\">".data) with
    | none => none
    | some r =>
      match takeCloseNoNewline' r with
      | some v => some (String.mk v)
      | none => searchErr6100Aux fuel r

/-- String-level wrapper for `searchErr6100Aux`. -/
def searchErr6100 (s : String) : Option String :=
  searchErr6100Aux (s.length + 1) s.data

/-- `list(set(...))` modelled deterministically: deduplicate keeping the
first occurrence (CPython's set iteration order is unspecified; no claim
depends on the order of the joined messages). -/
def dedupKeepFirst (l : List String) : List String :=
  l.foldl (fun acc x => if x ∈ acc then acc else acc ++ [x]) []

/-- `err_msg.split(',')[0].strip()`. -/
def simpleErrMsg (m : String) : String :=
  pyTrim ⟨m.data.takeWhile (fun c => c ≠ ',')⟩

/-- The simplified sentences produced for one `<ServiceLine>` segment
(1-based line counter `idx`): one per diagnosis sub-error, one per
modifier sub-error (with the ".0" hint when applicable). -/
def segErrors (idx : Nat) (seg : String) : List String :=
  let procCode := (searchTagVal seg "<ProcedureCode>" "</ProcedureCode>").getD "N/A"
  let diags := tagErrMatches seg "<DiagnosisCode"
  let mods := tagErrMatches seg "<ProcedureModifier"
  diags.map (fun t =>
    "L" ++ toString idx ++ " (Proc " ++ procCode ++ "): Diag " ++ String.mk [t.1] ++
    " ('" ++ t.2.1 ++ "') - " ++ simpleErrMsg t.2.2 ++ ".")
  ++ mods.map (fun t =>
    let base := "L" ++ toString idx ++ " (Proc " ++ procCode ++ "): Mod " ++ String.mk [t.1] ++
      " ('" ++ t.2.1 ++ "') - " ++ simpleErrMsg t.2.2 ++ "."
    if strContains t.2.1 ".0" then
      base ++ " (Note: Modifiers should be 2 chars, e.g., '59' not '59.0')."
    else base)

/-- All per-service-line simplified error sentences of the fragment. -/
def serviceLineErrors (xml : String) : List String :=
  ((findAllBetween xml "<ServiceLine>" "</ServiceLine>").enum.map
    (fun p => segErrors (p.1 + 1) p.2)).flatten

/-- Stripping of an "API Error: " prefix (11 characters) plus surrounding
whitespace, applied before parsing. -/
def strippedXml (s : String) : String :=
  if pyStartsWith s "API Error: " then pyTrim (pyDrop s 11) else s

/-- The generic sentence substituted when a fragment starting with
"<Encounter" yields no parsed errors. -/
def noLineErrorsGeneric : String :=
  "Encounter creation failed. No specific line errors parsed. Review raw API response."

/-- `parse_and_simplify_tebra_xml_error`: passes through inputs without
"<Encounter"; strips an "API Error: " prefix; emits per-line sub-error
sentences, else a single encounter-level sentence from the 6100 tag, else
a generic sentence when the fragment starts with "<Encounter", else the
(stripped) input; joins the deduplicated sentences with "; ".  The two
context arguments are unused, as in the source. -/
def parse_and_simplify_tebra_xml_error (xmlString : String)
    (_patientIdContext _dosContext : String) : String :=
  if ¬ strContains xmlString "<Encounter" then xmlString
  else
    let xml := strippedXml xmlString
    let errsA := serviceLineErrors xml
    let errsB :=
      if errsA.isEmpty then
        match searchErr6100 xml with
        | some m => errsA ++ ["Encounter Creation Failed: " ++ pyTrim m ++ "."]
        | none => errsA
      else errsA
    if errsB.isEmpty then
      if pyStartsWith xml "<Encounter" then
        joinSep "; " (dedupKeepFirst (errsB ++ [noLineErrorsGeneric]))
      else xml
    else joinSep "; " (dedupKeepFirst errsB)

-- ### Entity resolution with per-run caching

/-- Cache key `f"patient_case_{pid}"`. -/
def caseCacheKey (pid : Int) : String := "patient_case_" ++ toString pid

/-- Cache key `f"provider_id_{practice_id}_{name}"`. -/
def providerCacheKey (practiceId : Int) (name : String) : String :=
  "provider_id_" ++ toString practiceId ++ "_" ++ name

/-- Cache key `f"location_id_{practice_id}_{name}"`. -/
def locationCacheKey (practiceId : Int) (name : String) : String :=
  "location_id_" ++ toString practiceId ++ "_" ++ name

/-- Truthiness of a case record's `PatientCaseID` field. -/
def caseIdTruthy (c : CaseData) : Bool := intTruthy c.PatientCaseID

/-- `get_primary_case_for_patient`: cached; else query `GetPatient`, take
the first case flagged primary, falling back to the first case, else
NotFound; the outcome (including NotFound) is cached.  Returns the
outcome, the new cache, and the number of remote queries issued. -/
def get_primary_case_for_patient (env : Env) (cache : Cache) (patientId : Int) :
    Option Int × Cache × Nat :=
  let key := caseCacheKey patientId
  match cacheLookup cache key with
  | some v => (v, cache, 0)
  | none =>
    let cases := env.getPatientCases patientId
    let primary := cases.find? (fun c => pyFlagTrue c.IsPrimaryCase && caseIdTruthy c)
    let caseIdFound : Option Int :=
      match primary with
      | some c => some (c.PatientCaseID.getD 0)
      | none =>
        match cases with
        | c0 :: _ => if caseIdTruthy c0 then some (c0.PatientCaseID.getD 0) else none
        | [] => none
    (caseIdFound, cacheInsert cache key caseIdFound, 1)

/-- The active check on a provider record (bool or "true" string). -/
def providerActive (p : ProviderData) : Bool := pyFlagTrue p.Active

/-- The exact-phase acceptance test: active, truthy `FullName` whose
trimmed lower case equals the search name lower-cased, truthy `ID`. -/
def exactActiveMatch (search : String) (p : ProviderData) : Bool :=
  providerActive p &&
  (match p.FullName with
   | some fn => fn ≠ "" && pyLower (pyTrim fn) == pyLower search
   | none => false) &&
  intTruthy p.ID

/-- The candidate full name used by the fuzzy phase:
`p.FullName.strip().lower() if ... else ""`. -/
def nameApiOf (p : ProviderData) : String :=
  match p.FullName with
  | some fn => if fn ≠ "" then pyLower (pyTrim fn) else ""
  | none => ""

/-- The search-name tokens: strip commas and periods, split on
whitespace, lower-case, drop the credential suffixes md/do/pa/np; if
nothing remains, fall back to the whole lower-cased search name. -/
def providerTerms (search : String) : List String :=
  let terms := (pySplit (pyReplace (pyReplace search "," "") "." "")).filterMap
    (fun t =>
      let lt := pyLower t
      if lt ∈ ["md", "do", "pa", "np"] ∨ t = "" then none else some lt)
  if terms = [] then [pyLower search] else terms

/-- The fuzzy score: 100 on an exact lower-cased name match, else the
fraction of search tokens occurring as substrings of the candidate name
times 90 (exact rational arithmetic). -/
def fuzzyScore (searchLower : String) (terms : List String) (nameApi : String) : PyRat :=
  if nameApi = searchLower then ⟨100, 1⟩
  else if terms ≠ [] then
    ⟨(terms.countP (fun t => strContains nameApi t) : Int) * 90, terms.length⟩
  else ⟨0, 1⟩

/-- One accepted fuzzy candidate. -/
structure FlexCand where
  ID : Int
  FullName : String
  score : PyRat
deriving DecidableEq

/-- The contribution of one broad-search record to the accepted candidate
list: skipped when inactive or nameless, accepted when its score exceeds
70 and it has an `ID`. -/
def flexCandOf (searchLower : String) (terms : List String) (p : ProviderData) :
    List FlexCand :=
  if ¬ providerActive p then []
  else
    let nameApi := nameApiOf p
    if nameApi = "" then []
    else
      let score := fuzzyScore searchLower terms nameApi
      if PyRat.lt ⟨70, 1⟩ score ∧ p.ID ≠ none then
        [⟨p.ID.getD 0, (p.FullName.getD ""), score⟩]
      else []

/-- The accepted fuzzy candidates of the whole broad result list, in
result-set order. -/
def fuzzyCandidates (searchLower : String) (terms : List String)
    (ps : List ProviderData) : List FlexCand :=
  (ps.map (flexCandOf searchLower terms)).flatten

/-- Running best of `sorted(found, key=score, reverse=True)[0]` (Python's
sort is stable, so the head of the descending sort is the earliest
candidate attaining the maximal score: a later candidate replaces the
current best only on a strictly greater score). -/
def pickBestAux (best : FlexCand) : List FlexCand → FlexCand
  | [] => best
  | x :: rest => pickBestAux (if PyRat.lt best.score x.score then x else best) rest

/-- `sorted(found_providers_flex, key=lambda x: x['score'], reverse=True)[0]`
as an option on the possibly-empty candidate list. -/
def pickBest : List FlexCand → Option FlexCand
  | [] => none
  | c :: rest => some (pickBestAux c rest)

/-- `get_provider_id_by_name`: parameter guard, strip, cache check; exact
phase over the exact-filter query; fuzzy phase over the practice-wide
query only when the exact phase finds nothing; the outcome (including
NotFound) is cached.  Returns the outcome, the new cache, and the number
of `GetProviders` queries issued. -/
def get_provider_id_by_name (env : Env) (cache : Cache) (practiceId : Int)
    (providerNameFromExcel : String) : Option Int × Cache × Nat :=
  if practiceId = 0 ∨ providerNameFromExcel = "" then (none, cache, 0)
  else
    let search := pyTrim providerNameFromExcel
    if search = "" then (none, cache, 0)
    else
      let key := providerCacheKey practiceId search
      match cacheLookup cache key with
      | some v => (v, cache, 0)
      | none =>
        match (env.getProvidersExact practiceId search).find? (exactActiveMatch search) with
        | some p =>
          let fnd := some (p.ID.getD 0)
          (fnd, cacheInsert cache key fnd, 1)
        | none =>
          let broad := env.getProvidersBroad practiceId
          let terms := providerTerms search
          let cands := fuzzyCandidates (pyLower search) terms broad
          let fnd := (pickBest cands).map (fun c => c.ID)
          (fnd, cacheInsert cache key fnd, 2)

/-- The location acceptance test: truthy `Name` whose trimmed lower case
equals the search name lower-cased, truthy `ID`. -/
def locationMatch (search : String) (loc : LocationData) : Bool :=
  (match loc.Name with
   | some nm => nm ≠ "" && pyLower (pyTrim nm) == pyLower search
   | none => false) &&
  intTruthy loc.ID

/-- `get_location_id_by_name`: parameter guard, strip, cache check; exact
case-insensitive name match over the practice's service locations; the
outcome (including NotFound) is cached. -/
def get_location_id_by_name (env : Env) (cache : Cache) (practiceId : Int)
    (locationNameToFind : String) : Option Int × Cache × Nat :=
  if practiceId = 0 ∨ locationNameToFind = "" then (none, cache, 0)
  else
    let locationName := pyTrim locationNameToFind
    if locationName = "" then (none, cache, 0)
    else
      let key := locationCacheKey practiceId locationName
      match cacheLookup cache key with
      | some v => (v, cache, 0)
      | none =>
        let locs := env.getLocations practiceId
        let fnd := match locs.find? (locationMatch locationName) with
                   | some l => some (l.ID.getD 0)
                   | none => none
        (fnd, cacheInsert cache key fnd, 1)

-- ### Encounter grouping and per-group processing (process_excel_data)

/-- The encounter group key: `(patientId, from-date %Y-%m-%d, caseId)`. -/
structure GKey where
  pid : Int
  dos : String
  cid : Int
deriving DecidableEq

/-- One encounter group: the header row (first row seen for the key) and
the rows contributing service lines, each paired with its dataframe
index. -/
structure GroupData where
  header : Row
  lines : List (Nat × Row)
deriving DecidableEq

/-- The resolved header data of a group, ready for payload assembly. -/
structure GroupHeaderInfo where
  rpId : Int
  locId : Int
  schedProviderId : Option Int
  batchNumVal : Option String
  startS : String
  endS : String
  pos : PosPayload
deriving DecidableEq

/-- The raw place-of-service input of a group: the stripped stringified
`Place of Service` cell, falling back to the stripped stringified
`Encounter Mode` cell when the former is empty, failing when both are
empty.  (A NaN cell stringifies to "nan", which is not empty.) -/
def resolvePosInput (hdr : Row) : Except String String :=
  let posExcelVal := pyTrim (pyStr hdr.placeOfService)
  if posExcelVal ≠ "" then .ok posExcelVal
  else
    let encModeVal := pyTrim (pyStr hdr.encounterMode)
    if encModeVal ≠ "" then .ok encModeVal
    else .error "Both 'Place of Service' & 'Encounter Mode' are missing."

/-- Lines 560-563: hard resolution of the rendering provider from the
header row. -/
def resolveRenderingProvider (env : Env) (cache : Cache) (practiceId : Int)
    (hdr : Row) : Except String Int × Cache :=
  let rpName := pyTrim (pyStr hdr.renderingProvider)
  if rpName = "" then (.error "'Rendering Provider' missing.", cache)
  else
    let r1 := get_provider_id_by_name env cache practiceId rpName
    if ¬ intTruthy r1.1 then
      (.error ("Active Provider ID not found for '" ++ rpName ++ "'."), r1.2.1)
    else (.ok (r1.1.getD 0), r1.2.1)

/-- Lines 565-568: hard resolution of the service location. -/
def resolveGroupLocation (env : Env) (cache : Cache) (practiceId : Int)
    (hdr : Row) : Except String Int × Cache :=
  let locName := pyTrim (pyStr hdr.location)
  if locName = "" then (.error "'Location' missing.", cache)
  else
    let r2 := get_location_id_by_name env cache practiceId locName
    if ¬ intTruthy r2.1 then
      (.error ("Location ID not found for '" ++ locName ++ "'."), r2.2.1)
    else (.ok (r2.1.getD 0), r2.2.1)

/-- Lines 570-575: soft resolution of the scheduling provider (a failed
lookup only omits it from the payload). -/
def resolveSchedulingProvider (env : Env) (cache : Cache) (practiceId : Int)
    (hdr : Row) : Option Int × Cache :=
  let schName := pyTrim (pyStr hdr.schedulingProvider)
  if schName ≠ "" then
    let rr := get_provider_id_by_name env cache practiceId schName
    ((if intTruthy rr.1 then some (rr.1.getD 0) else none), rr.2.1)
  else (none, cache)

/-- Lines 579-582: the encounter service dates; an invalid From Date
fails the group, while a missing or unparseable Through Date silently
becomes the start date. -/
def resolveDates (env : Env) (hdr : Row) (dosKey : String) :
    Except String (String × String) :=
  match format_datetime_for_api env hdr.fromDate with
  | none =>
    .error ("Encounter 'From Date' invalid for group (key: " ++ dosKey ++ ").")
  | some startS =>
    .ok (startS, (format_datetime_for_api env hdr.throughDate).getD startS)

/-- Lines 590-596: the place-of-service value (with encounter-mode
fallback) and its payload. -/
def resolvePos (hdr : Row) : Except String PosPayload :=
  match resolvePosInput hdr with
  | .error m => .error m
  | .ok posVal =>
    match create_place_of_service_payload (some posVal) with
    | none => .error ("POS payload creation failed for '" ++ posVal ++ "'.")
    | some pos => .ok pos

/-- Lines 560-596 of the source: resolve rendering provider (hard),
location (hard), scheduling provider (soft), batch number, the encounter
start/end dates, and the place of service, in source order. -/
def resolveGroupHeader (env : Env) (cache : Cache) (practiceId : Int) (k : GKey)
    (hdr : Row) : Except String GroupHeaderInfo × Cache :=
  match resolveRenderingProvider env cache practiceId hdr with
  | (.error m, c1) => (.error m, c1)
  | (.ok rpId, c1) =>
    match resolveGroupLocation env c1 practiceId hdr with
    | (.error m, c2) => (.error m, c2)
    | (.ok locId, c2) =>
      let r3 := resolveSchedulingProvider env c2 practiceId hdr
      let batchNumVal : Option String :=
        match hdr.batchNumber with
        | some s => some (pyTrim s)
        | none => none
      match resolveDates env hdr k.dos with
      | .error m => (.error m, r3.2)
      | .ok se =>
        match resolvePos hdr with
        | .error m => (.error m, r3.2)
        | .ok pos => (.ok ⟨rpId, locId, r3.1, batchNumVal, se.1, se.2, pos⟩, r3.2)

/-- The group-level sub-error recorded for a row whose service line could
not be created (`original_excel_row_num` is dataframe index + 2). -/
def slErrMsg (idx : Nat) (row : Row) : String :=
  "SvcLine for Proc '" ++ pyStr row.procedures ++ "' (orig Excel row " ++
    toString (idx + 2) ++ ") failed creation."

/-- The service-line building loop: each row yields either a payload or a
sub-error message, in row order. -/
def buildServiceLines : List (Nat × Row) → String → String →
    List ServiceLineReq × List String
  | [], _, _ => ([], [])
  | (idx, row) :: rest, startS, endS =>
    let built := buildServiceLines rest startS endS
    match create_service_line_payload row startS endS with
    | none => (built.1, slErrMsg idx row :: built.2)
    | some o => (o :: built.1, built.2)

/-- Assembly of the `EncounterCreate` arguments (lines 614-623): status
constant "Draft", optional scheduling provider, batch number included
only when non-blank. -/
def mkEncounterPayload (practiceId : Int) (k : GKey) (gh : GroupHeaderInfo)
    (sls : List ServiceLineReq) : EncounterPayload :=
  { PatientID := k.pid, RenderingProviderID := gh.rpId, LocationID := gh.locId,
    PlaceOfService := gh.pos, ServiceStartDate := gh.startS, ServiceEndDate := gh.endS,
    ServiceLines := sls, PracticeID := practiceId, EncounterStatus := "Draft",
    CaseID := k.cid, SchedulingProviderID := gh.schedProviderId,
    BatchNumber :=
      match gh.batchNumVal with
      | some s => if s ≠ "" then some s else none
      | none => none }

/-- Interpretation of the `CreateEncounter` response (lines 629-640):
structured error, authorization failure, success with an `EncounterID`,
or unknown response. -/
def interpretResp (resp : ApiResp) (pidContext dosContext : String) : String × String :=
  if resp.IsError then
    ("Failed", parse_and_simplify_tebra_xml_error resp.ErrorMessage pidContext dosContext)
  else if ¬ resp.Authorized then
    ("Failed", "API Auth Error: " ++ resp.SecurityResult)
  else
    match resp.EncounterID with
    | some eid => ("Done", toString eid)
    | none => ("Failed", "Unknown API response: " ++ pyTake resp.serialized 250 ++ "...")

/-- Outcome of processing one group: final status and message for its
rows, the `CreateEncounter` calls issued (none or one), and the cache
after the group's lookups. -/
structure GroupResult where
  status : String
  message : String
  calls : List EncounterPayload
  cache : Cache

/-- The per-group body of the processing loop (lines 559-646): resolve
the header; build the service lines; fail the group if any line failed,
or if no line was built; otherwise issue the remote call and interpret
the response. -/
def processGroup (env : Env) (cache : Cache) (practiceId : Int) (k : GKey)
    (g : GroupData) : GroupResult :=
  match resolveGroupHeader env cache practiceId k g.header with
  | (.error m, c') => ⟨"Failed", m, [], c'⟩
  | (.ok gh, c') =>
    let built := buildServiceLines g.lines gh.startS gh.endS
    if built.2 ≠ [] then
      ⟨"Failed", "Service Line Payload Errors: " ++ joinSep "; " built.2, [], c'⟩
    else if built.1 = [] then
      ⟨"Failed", "No valid service lines were created for this encounter.", [], c'⟩
    else
      let payload := mkEncounterPayload practiceId k gh built.1
      let resp := env.createEncounter payload
      let sm := interpretResp resp (toString k.pid) k.dos
      ⟨sm.1, sm.2, [payload], c'⟩

/-- The grouping decision for one row (lines 483-514): missing or
malformed patient id / from date fail the row before any lookup; else the
case id is resolved (cached) and the group key built. -/
def rowGroupDecision (env : Env) (cache : Cache) (row : Row) : Except String GKey × Cache :=
  if isna row.patientId || pyTrim (pyStr row.patientId) == "" then
    (.error "'Patient ID' is missing.", cache)
  else if isna row.fromDate || pyTrim (pyStr row.fromDate) == "" then
    (.error "'From Date' (Date of Service) is missing for grouping.", cache)
  else
    match pyInt (pyStr row.patientId) with
    | none =>
      (.error ("Invalid format for 'Patient ID' ('" ++ pyStr row.patientId ++
        "') or 'From Date' ('" ++ pyStr row.fromDate ++ "')."), cache)
    | some pidGrp =>
      match env.parseDate (pyStr row.fromDate) with
      | none =>
        (.error ("Invalid format for 'Patient ID' ('" ++ pyStr row.patientId ++
          "') or 'From Date' ('" ++ pyStr row.fromDate ++ "')."), cache)
      | some d =>
        let rc := get_primary_case_for_patient env cache pidGrp
        if ¬ intTruthy rc.1 then
          (.error ("No existing Tebra case found for Patient ID " ++ toString pidGrp ++ "."),
            rc.2.1)
        else (.ok ⟨pidGrp, d.ymd, rc.1.getD 0⟩, rc.2.1)

/-- The grouping-phase state: the evolving cache, the per-row result
columns so far (one entry per processed row, "Pending" for grouped rows,
"Failed" plus reason for rows failing validation), the per-row group
assignment, the groups in insertion order, and the accumulated
`grouping_warnings` (line 519: one per row that failed to group, naming
its original Excel row number, which is dataframe index + 2). -/
structure GState where
  cache : Cache
  preResults : List (String × String)
  assign : List (Option GKey)
  groups : List (GKey × GroupData)
  warnings : List String

/-- Append a row to its group, creating the group (with the row as
header) when the key is new; insertion order of keys is preserved, as for
a Python dict. -/
def addToGroup : List (GKey × GroupData) → GKey → Nat → Row → List (GKey × GroupData)
  | [], k, idx, row => [(k, ⟨row, [(idx, row)]⟩)]
  | (k', g) :: rest, k, idx, row =>
    if k' = k then (k', ⟨g.header, g.lines ++ [(idx, row)]⟩) :: rest
    else (k', g) :: addToGroup rest k idx row

/-- One iteration of the grouping loop. -/
def groupStep (env : Env) (st : GState) (row : Row) : GState :=
  let idx := st.assign.length
  match rowGroupDecision env st.cache row with
  | (.error msg, c') =>
    ⟨c', st.preResults ++ [("Failed", msg)], st.assign ++ [none], st.groups,
      st.warnings ++ ["Row " ++ toString (idx + 2) ++ ": " ++ msg]⟩
  | (.ok k, c') =>
    ⟨c', st.preResults ++ [("Pending", "")], st.assign ++ [some k],
      addToGroup st.groups k idx row, st.warnings⟩

/-- The whole grouping phase (the cache starts empty: the run clears all
resolver keys first). -/
def groupRows (env : Env) (rows : List Row) : GState :=
  rows.foldl (groupStep env) ⟨[], [], [], [], []⟩

/-- The write-back of one group outcome to all its rows
(`df_results.loc[idx, ...] = ...` for each original index). -/
def writeAll (idxs : List Nat) (v : String × String) (res : List (String × String)) :
    List (String × String) :=
  idxs.foldl (fun r i => r.set i v) res

/-- The group-processing state: the result columns, the success/failure
group counters, the cache, and the remote calls issued so far. -/
structure PState where
  results : List (String × String)
  succ : Nat
  fail : Nat
  cache : Cache
  calls : List EncounterPayload

/-- The dataframe indices of a group's rows. -/
def memberIdxs (g : GroupData) : List Nat := g.lines.map Prod.fst

/-- One iteration of the group-processing loop: process the group, write
its status and message to every member row, bump the counters. -/
def procStep (env : Env) (practiceId : Int) (st : PState) (e : GKey × GroupData) : PState :=
  let gr := processGroup env st.cache practiceId e.1 e.2
  ⟨writeAll (memberIdxs e.2) (gr.status, gr.message) st.results,
    st.succ + (if gr.status = "Done" then 1 else 0),
    st.fail + (if gr.status = "Failed" then 1 else 0),
    gr.cache, st.calls ++ gr.calls⟩

/-- The whole group-processing phase, in group insertion order. -/
def processGroups (env : Env) (practiceId : Int) (st : PState)
    (groups : List (GKey × GroupData)) : PState :=
  groups.foldl (procStep env practiceId) st

/-- Result of a run: one (status, message) pair per input row in input
order, the group counters, and the remote calls issued. -/
structure RunResult where
  results : List (String × String)
  successGroups : Nat
  failGroups : Nat
  calls : List EncounterPayload

/-- `process_excel_data`: group the rows, then process every group and
write each group's outcome to all its rows. The early return of lines
531-540 is taken exactly when the grouping produced no valid group and
no warning (i.e. on a zero-row input); it returns the same per-row
results (none) and counters (0, 0), so only the output column list —
modelled separately by `finalColumns` — differs on that path. -/
def process_excel_data (env : Env) (practiceId : Int) (rows : List Row) : RunResult :=
  let gst := groupRows env rows
  let pst := processGroups env practiceId ⟨gst.preResults, 0, 0, gst.cache, []⟩ gst.groups
  ⟨pst.results, pst.succ, pst.fail, pst.calls⟩

-- ### Output column order (lines 663-682)

/-- The appended status column name. -/
def chargeEntryStatusCol : String := "Charge Entry Status"

/-- The appended result-message column name (`COL_RESULT_MESSAGE`). -/
def resultMessageCol : String := "Encounter ID or Reasons for Failure"

/-- The internal row-number column dropped from the final output. -/
def origRowNumCol : String := "original_excel_row_num"

/-- The final output column order: the input columns (which include the
internal row-number column), the two result columns appended if not
already present, the internal row-number column removed, then any other
result-frame column appended (a no-op in practice). -/
def outputColumnOrder (inputCols : List String) : List String :=
  let order := inputCols
  let order := if chargeEntryStatusCol ∈ order then order else order ++ [chargeEntryStatusCol]
  let order := if resultMessageCol ∈ order then order else order ++ [resultMessageCol]
  let order := order.erase origRowNumCol
  let dfResultCols := inputCols
    ++ (if chargeEntryStatusCol ∈ inputCols then [] else [chargeEntryStatusCol])
    ++ (if resultMessageCol ∈ inputCols then [] else [resultMessageCol])
  dfResultCols.foldl
    (fun acc col => if col ∉ acc ∧ col ≠ origRowNumCol then acc ++ [col] else acc) order

/-- The column list of the early return taken when no valid groups formed
and no grouping warnings accrued (lines 536-537): the input columns
(which include the internal row-number column) plus the three names
appended, deduplicated keeping the first occurrence (the `sorted` by
first index in the original list makes this order deterministic). The
internal row-number column is NOT removed on this path. -/
def finalColsOnNoGroups (inputCols : List String) : List String :=
  dedupKeepFirst (inputCols ++ [origRowNumCol, chargeEntryStatusCol, resultMessageCol])

/-- The final output column list of a run (lines 531-540 and 663-682):
the early return, taken when the grouping phase produced no valid group
and no grouping warning, keeps the internal row-number column; the
normal path drops it. -/
def finalColumns (env : Env) (inputCols : List String) (rows : List Row) : List String :=
  let gst := groupRows env rows
  if gst.groups.isEmpty && gst.warnings.isEmpty then finalColsOnNoGroups inputCols
  else outputColumnOrder inputCols

-- ### Auxiliary definitions for the verification statements

/-- Association lookup of a group by key (first entry wins; keys are
unique by construction). -/
def lookupGroup : List (GKey × GroupData) → GKey → Option GroupData
  | [], _ => none
  | (k', g) :: rest, k => if k' = k then some g else lookupGroup rest k

/-- The row-validation outcome of the pre-grouping checks, written from
the spec's RowValidator contract: `some message` when the patient id is
absent or non-numeric or the from date is absent or unparseable, `none`
when the row is groupable.  (Matches the first half of
`rowGroupDecision`, which is proved below.) -/
def rowValidationMsg (env : Env) (r : Row) : Option String :=
  if isna r.patientId || pyTrim (pyStr r.patientId) == "" then
    some "'Patient ID' is missing."
  else if isna r.fromDate || pyTrim (pyStr r.fromDate) == "" then
    some "'From Date' (Date of Service) is missing for grouping."
  else if (pyInt (pyStr r.patientId)).isNone ∨ (env.parseDate (pyStr r.fromDate)).isNone then
    some ("Invalid format for 'Patient ID' ('" ++ pyStr r.patientId ++
      "') or 'From Date' ('" ++ pyStr r.fromDate ++ "').")
  else none

-- ### Concrete test fixtures (used by witnesses and counterexamples)

/-- A date oracle recognising exactly one calendar date. -/
def dOnly : String → Option PyDate := fun s =>
  if s = "2025-01-02" then some ⟨"2025-01-02", "2025-01-02T00:00:00"⟩ else none

/-- A small healthy environment: one primary case 77 per patient, exact
provider matches with id 5, one location "Main Office" with id 9, and a
`CreateEncounter` that succeeds with id 4242. -/
def testEnv : Env :=
  { parseDate := dOnly,
    getPatientCases := fun _ => [⟨some 77, some (.b true)⟩],
    getProvidersExact := fun _ n => [⟨some 5, some n, some (.b true)⟩],
    getProvidersBroad := fun _ => [],
    getLocations := fun _ => [⟨some 9, some "Main Office"⟩],
    createEncounter := fun _ => ⟨false, "", true, "", some 4242, ""⟩ }

/-- A fully valid charge row for `testEnv`. -/
def baseRow : Row :=
  { patientId := some "12", fromDate := some "2025-01-02",
    throughDate := some "2025-01-02",
    renderingProvider := some "Alice Smith", schedulingProvider := some "",
    location := some "Main Office", placeOfService := some "OFFICE",
    encounterMode := some "",
    procedures := some "99213", mod1 := some "", mod2 := some "",
    units := some "1",
    diag1 := some "A00.0", diag2 := some "", diag3 := some "", diag4 := some "",
    batchNumber := none }

/-- `baseRow` with a blank diagnosis 1 (its service line is invalid). -/
def badDiagRow : Row := { baseRow with diag1 := some "" }

/-- `baseRow` with zero units (its service line is invalid). -/
def zeroUnitsRow : Row := { baseRow with units := some "0" }

/-- `baseRow` with a missing (NaN) place of service and a valid encounter
mode. -/
def nanPosRow : Row := { baseRow with placeOfService := none, encounterMode := some "OFFICE" }

/-- `baseRow` with an unparseable through date. -/
def badThroughRow : Row := { baseRow with throughDate := some "garbage" }

/-- The group key formed by `testEnv` for `baseRow`. -/
def baseKey : GKey := ⟨12, "2025-01-02", 77⟩

/-- The group keys, in insertion order. -/
def keysOf (gs : List (GKey × GroupData)) : List GKey := gs.map Prod.fst

/-- Well-formedness of the grouping state: group keys are unique and the
group member lists correspond exactly to the per-row assignment. -/
def GroupsInv (st : GState) : Prop :=
  (keysOf st.groups).Nodup ∧
  (∀ k g, lookupGroup st.groups k = some g →
    ∀ i ∈ memberIdxs g, st.assign[i]? = some (some k)) ∧
  (∀ i k, st.assign[i]? = some (some k) →
    ∃ g, lookupGroup st.groups k = some g ∧ i ∈ memberIdxs g)


-- ## Verification

-- ## Helper lemmas

theorem cacheLookup_insert_self (c : Cache) (k : String) (v : Option Int) :
    cacheLookup (cacheInsert c k v) k = some v := by
  simp [cacheLookup, cacheInsert, List.find?]

theorem joinSep_single (sep a : String) : joinSep sep [a] = a := rfl

/-- A group whose header resolution fails is failed with that message and
issues no remote call. -/
theorem processGroup_header_error (env : Env) (cache : Cache) (practiceId : Int)
    (k : GKey) (g : GroupData) (m : String) (c' : Cache)
    (h : resolveGroupHeader env cache practiceId k g.header = (.error m, c')) :
    processGroup env cache practiceId k g = ⟨"Failed", m, [], c'⟩ := by
  unfold processGroup
  rw [h]

/-- A member line with no service-line payload forces at least one
sub-error. -/
theorem buildServiceLines_err_of_mem (L : List (Nat × Row)) (s e : String)
    (p : Nat × Row) (hp : p ∈ L)
    (hn : create_service_line_payload p.2 s e = none) :
    (buildServiceLines L s e).2 ≠ [] := by
  induction L with
  | nil => cases hp
  | cons q rest ih =>
    rcases List.mem_cons.1 hp with h | h
    · subst h
      unfold buildServiceLines
      rw [hn]
      simp
    · unfold buildServiceLines
      cases hc : create_service_line_payload q.2 s e with
      | none => simp
      | some o => simpa using ih h

theorem writeAll_cons (i : Nat) (rest : List Nat) (v : String × String)
    (res : List (String × String)) :
    writeAll (i :: rest) v res = writeAll rest v (res.set i v) := rfl

theorem writeAll_length (idxs : List Nat) (v : String × String) :
    ∀ res : List (String × String), (writeAll idxs v res).length = res.length := by
  induction idxs with
  | nil => intro res; rfl
  | cons i rest ih =>
    intro res
    rw [writeAll_cons, ih (res.set i v), List.length_set]

theorem writeAll_get_not_mem (idxs : List Nat) (v : String × String) (j : Nat) :
    ∀ res : List (String × String), j ∉ idxs → (writeAll idxs v res)[j]? = res[j]? := by
  induction idxs with
  | nil => intro res _; rfl
  | cons i rest ih =>
    intro res hj
    rw [writeAll_cons, ih (res.set i v) (fun h => hj (List.mem_cons_of_mem i h))]
    exact List.getElem?_set_ne
      (fun h => hj (by rw [← h]; exact List.mem_cons_self i rest))

theorem writeAll_get_mem (idxs : List Nat) (v : String × String) (j : Nat) :
    ∀ res : List (String × String), j ∈ idxs → j < res.length →
    (writeAll idxs v res)[j]? = some v := by
  induction idxs with
  | nil => intro res hj _; cases hj
  | cons i rest ih =>
    intro res hj hlt
    rw [writeAll_cons]
    by_cases hmem : j ∈ rest
    · exact ih (res.set i v) hmem (by rw [List.length_set]; exact hlt)
    · have hij : j = i := by
        rcases List.mem_cons.1 hj with h | h
        · exact h
        · exact absurd h hmem
      subst hij
      rw [writeAll_get_not_mem rest v j (res.set j v) hmem]
      exact List.getElem?_set_self hlt

theorem processGroups_cons (env : Env) (practiceId : Int) (st : PState)
    (e : GKey × GroupData) (rest : List (GKey × GroupData)) :
    processGroups env practiceId st (e :: rest) =
      processGroups env practiceId (procStep env practiceId st e) rest := rfl

theorem procStep_results (env : Env) (practiceId : Int) (st : PState)
    (e : GKey × GroupData) :
    (procStep env practiceId st e).results =
      writeAll (memberIdxs e.2)
        ((processGroup env st.cache practiceId e.1 e.2).status,
         (processGroup env st.cache practiceId e.1 e.2).message) st.results := rfl

theorem processGroups_results_length (env : Env) (practiceId : Int)
    (groups : List (GKey × GroupData)) :
    ∀ st : PState, (processGroups env practiceId st groups).results.length =
      st.results.length := by
  induction groups with
  | nil => intro st; rfl
  | cons e rest ih =>
    intro st
    rw [processGroups_cons, ih (procStep env practiceId st e), procStep_results,
      writeAll_length]

theorem processGroups_get_untouched (env : Env) (practiceId : Int)
    (groups : List (GKey × GroupData)) (j : Nat) :
    ∀ st : PState, (∀ e ∈ groups, j ∉ memberIdxs e.2) →
    (processGroups env practiceId st groups).results[j]? = st.results[j]? := by
  induction groups with
  | nil => intro st _; rfl
  | cons e rest ih =>
    intro st h
    rw [processGroups_cons,
      ih (procStep env practiceId st e) (fun e' he' => h e' (List.mem_cons_of_mem e he')),
      procStep_results]
    exact writeAll_get_not_mem _ _ j st.results (h e (List.mem_cons_self e rest))

theorem processGroups_pair_eq (env : Env) (practiceId : Int)
    (L1 L2 : List (GKey × GroupData)) (e : GKey × GroupData) (i j : Nat)
    (hi : i ∈ memberIdxs e.2) (hj : j ∈ memberIdxs e.2)
    (hni : ∀ e' ∈ L2, i ∉ memberIdxs e'.2) (hnj : ∀ e' ∈ L2, j ∉ memberIdxs e'.2)
    (st : PState) (hilen : i < st.results.length) (hjlen : j < st.results.length) :
    (processGroups env practiceId st (L1 ++ e :: L2)).results[i]? =
    (processGroups env practiceId st (L1 ++ e :: L2)).results[j]? := by
  have hsplit : processGroups env practiceId st (L1 ++ e :: L2) =
      processGroups env practiceId
        (procStep env practiceId (processGroups env practiceId st L1) e) L2 := by
    unfold processGroups
    rw [List.foldl_append, List.foldl_cons]
  rw [hsplit]
  have hlen1 : (processGroups env practiceId st L1).results.length = st.results.length :=
    processGroups_results_length env practiceId L1 st
  rw [processGroups_get_untouched env practiceId L2 i _ hni,
    processGroups_get_untouched env practiceId L2 j _ hnj,
    procStep_results,
    writeAll_get_mem _ _ i _ hi (by rw [hlen1]; exact hilen),
    writeAll_get_mem _ _ j _ hj (by rw [hlen1]; exact hjlen)]

theorem lookupGroup_addToGroup_self (gs : List (GKey × GroupData)) (k : GKey)
    (idx : Nat) (row : Row) :
    lookupGroup (addToGroup gs k idx row) k =
      some (match lookupGroup gs k with
            | some g => ⟨g.header, g.lines ++ [(idx, row)]⟩
            | none => ⟨row, [(idx, row)]⟩) := by
  induction gs with
  | nil => simp [addToGroup, lookupGroup]
  | cons e rest ih =>
    obtain ⟨k', g⟩ := e
    by_cases hk : k' = k
    · subst hk
      simp [addToGroup, lookupGroup]
    · simp [addToGroup, lookupGroup, hk, ih]

theorem lookupGroup_addToGroup_ne (gs : List (GKey × GroupData)) (k k' : GKey)
    (idx : Nat) (row : Row) (h : k' ≠ k) :
    lookupGroup (addToGroup gs k idx row) k' = lookupGroup gs k' := by
  induction gs with
  | nil => simp [addToGroup, lookupGroup, Ne.symm h]
  | cons e rest ih =>
    obtain ⟨k0, g⟩ := e
    by_cases hk : k0 = k
    · subst hk
      simp [addToGroup, lookupGroup, Ne.symm h]
    · by_cases hk' : k0 = k'
      · subst hk'
        simp [addToGroup, lookupGroup, hk]
      · simp [addToGroup, lookupGroup, hk, hk', ih]

theorem mem_keys_addToGroup (gs : List (GKey × GroupData)) (k k'' : GKey)
    (idx : Nat) (row : Row) :
    k'' ∈ keysOf (addToGroup gs k idx row) ↔ k'' ∈ keysOf gs ∨ k'' = k := by
  induction gs with
  | nil => simp [addToGroup, keysOf]
  | cons e rest ih =>
    obtain ⟨k0, g⟩ := e
    by_cases hk : k0 = k
    · subst hk
      simp [addToGroup, keysOf]
      tauto
    · simp only [addToGroup, hk, if_false, keysOf, List.map_cons, List.mem_cons]
      rw [show (List.map Prod.fst (addToGroup rest k idx row)) =
          keysOf (addToGroup rest k idx row) from rfl, ih]
      simp [keysOf]
      tauto

theorem keys_nodup_addToGroup (gs : List (GKey × GroupData)) (k : GKey)
    (idx : Nat) (row : Row) (h : (keysOf gs).Nodup) :
    (keysOf (addToGroup gs k idx row)).Nodup := by
  induction gs with
  | nil => simp [addToGroup, keysOf]
  | cons e rest ih =>
    obtain ⟨k0, g⟩ := e
    simp only [keysOf, List.map_cons, List.nodup_cons] at h
    by_cases hk : k0 = k
    · subst hk
      simpa [addToGroup, keysOf, List.nodup_cons] using h
    · simp only [addToGroup, hk, if_false, keysOf, List.map_cons, List.nodup_cons]
      refine ⟨?_, ih h.2⟩
      intro hc
      rw [show (List.map Prod.fst (addToGroup rest k idx row)) =
          keysOf (addToGroup rest k idx row) from rfl, mem_keys_addToGroup] at hc
      rcases hc with hc | hc
      · exact h.1 hc
      · exact hk hc

theorem mem_iff_lookupGroup (gs : List (GKey × GroupData)) (h : (keysOf gs).Nodup)
    (k : GKey) (g : GroupData) :
    (k, g) ∈ gs ↔ lookupGroup gs k = some g := by
  induction gs with
  | nil => simp [lookupGroup]
  | cons e rest ih =>
    obtain ⟨k0, g0⟩ := e
    simp only [keysOf, List.map_cons, List.nodup_cons] at h
    by_cases hk : k0 = k
    · subst hk
      have hlk : lookupGroup ((k0, g0) :: rest) k0 = some g0 := by simp [lookupGroup]
      rw [hlk]
      simp only [List.mem_cons, Option.some.injEq]
      constructor
      · intro hc
        rcases hc with hc | hc
        · injection hc with h1 h2
          exact h2.symm
        · exact absurd (List.mem_map_of_mem Prod.fst hc) h.1
      · intro hc
        exact Or.inl (by rw [hc])
    · simp only [lookupGroup, hk, if_false, List.mem_cons]
      rw [← ih h.2]
      constructor
      · intro hc
        rcases hc with hc | hc
        · injection hc with h1 h2
          exact absurd h1.symm hk
        · exact hc
      · exact Or.inr

theorem groupStep_inv (env : Env) (st : GState) (row : Row) (h : GroupsInv st) :
    GroupsInv (groupStep env st row) := by
  obtain ⟨hnd, hmem, hass⟩ := h
  unfold groupStep
  split
  · -- validation failure: groups unchanged, assignment extended with `none`
    refine ⟨hnd, ?_, ?_⟩
    · intro k g hg i hi
      have hold := hmem k g hg i hi
      have hlt := (List.getElem?_eq_some.1 hold).1
      rw [List.getElem?_append_left hlt]
      exact hold
    · intro i k hik
      by_cases hlt : i < st.assign.length
      · rw [List.getElem?_append_left hlt] at hik
        exact hass i k hik
      · exfalso
        have hlen := (List.getElem?_eq_some.1 hik).1
        rw [List.length_append, List.length_singleton] at hlen
        have hieq : i = st.assign.length := by omega
        rw [hieq, List.getElem?_concat_length] at hik
        injection hik with hik
        exact Option.noConfusion hik
  · -- grouped: key k0, member index st.assign.length appended
    rename_i k0 c' heq
    refine ⟨keys_nodup_addToGroup st.groups k0 st.assign.length row hnd, ?_, ?_⟩
    · intro k g hg i hi
      by_cases hk : k = k0
      · subst hk
        rw [lookupGroup_addToGroup_self] at hg
        injection hg with hg
        cases hlk : lookupGroup st.groups k with
        | some gOld =>
          rw [hlk] at hg
          subst hg
          simp only [memberIdxs, List.map_append, List.map_cons, List.map_nil,
            List.mem_append, List.mem_singleton] at hi
          rcases hi with hi | hi
          · have hold := hmem k gOld hlk i hi
            have hlt := (List.getElem?_eq_some.1 hold).1
            rw [List.getElem?_append_left hlt]
            exact hold
          · subst hi
            exact List.getElem?_concat_length st.assign (some k)
        | none =>
          rw [hlk] at hg
          subst hg
          simp only [memberIdxs, List.map_cons, List.map_nil, List.mem_singleton] at hi
          subst hi
          exact List.getElem?_concat_length st.assign (some k)
      · rw [lookupGroup_addToGroup_ne st.groups k0 k st.assign.length row hk] at hg
        have hold := hmem k g hg i hi
        have hlt := (List.getElem?_eq_some.1 hold).1
        rw [List.getElem?_append_left hlt]
        exact hold
    · intro i k hik
      by_cases hlt : i < st.assign.length
      · rw [List.getElem?_append_left hlt] at hik
        obtain ⟨g, hg, hi⟩ := hass i k hik
        by_cases hk : k = k0
        · subst hk
          refine ⟨⟨g.header, g.lines ++ [(st.assign.length, row)]⟩, ?_, ?_⟩
          · rw [lookupGroup_addToGroup_self, hg]
          · simp only [memberIdxs, List.map_append, List.mem_append]
            exact Or.inl hi
        · exact ⟨g, by
            rw [lookupGroup_addToGroup_ne st.groups k0 k st.assign.length row hk]
            exact hg, hi⟩
      · have hlen := (List.getElem?_eq_some.1 hik).1
        rw [List.length_append, List.length_singleton] at hlen
        have hieq : i = st.assign.length := by omega
        subst hieq
        rw [List.getElem?_concat_length] at hik
        injection hik with hik
        injection hik with hik
        subst hik
        rw [lookupGroup_addToGroup_self]
        refine ⟨_, rfl, ?_⟩
        cases hlk : lookupGroup st.groups k0 with
        | some gOld => simp [memberIdxs]
        | none => simp [memberIdxs]

theorem groupStep_lengths (env : Env) (st : GState) (row : Row) :
    (groupStep env st row).preResults.length = st.preResults.length + 1 ∧
    (groupStep env st row).assign.length = st.assign.length + 1 := by
  unfold groupStep
  split <;> simp

theorem groupStep_pre_stable (env : Env) (st : GState) (row : Row) (j : Nat)
    (hp : j < st.preResults.length) :
    (groupStep env st row).preResults[j]? = st.preResults[j]? := by
  unfold groupStep
  split <;> exact List.getElem?_append_left hp

theorem groupStep_assign_stable (env : Env) (st : GState) (row : Row) (j : Nat)
    (ha : j < st.assign.length) :
    (groupStep env st row).assign[j]? = st.assign[j]? := by
  unfold groupStep
  split <;> exact List.getElem?_append_left ha

theorem groupFold_lengths (env : Env) (rows : List Row) :
    ∀ st : GState,
    (List.foldl (groupStep env) st rows).preResults.length =
      st.preResults.length + rows.length ∧
    (List.foldl (groupStep env) st rows).assign.length =
      st.assign.length + rows.length := by
  induction rows with
  | nil => intro st; simp
  | cons r rest ih =>
    intro st
    rw [List.foldl_cons, List.length_cons]
    obtain ⟨h1, h2⟩ := ih (groupStep env st r)
    obtain ⟨g1, g2⟩ := groupStep_lengths env st r
    rw [h1, h2, g1, g2]
    omega

theorem groupFold_pre_stable (env : Env) (rows : List Row) :
    ∀ (st : GState) (j : Nat), j < st.preResults.length →
    (List.foldl (groupStep env) st rows).preResults[j]? = st.preResults[j]? := by
  induction rows with
  | nil => intro st j _; rfl
  | cons r rest ih =>
    intro st j hp
    rw [List.foldl_cons]
    obtain ⟨g1, _⟩ := groupStep_lengths env st r
    rw [ih (groupStep env st r) j (by omega)]
    exact groupStep_pre_stable env st r j hp

theorem groupFold_assign_stable (env : Env) (rows : List Row) :
    ∀ (st : GState) (j : Nat), j < st.assign.length →
    (List.foldl (groupStep env) st rows).assign[j]? = st.assign[j]? := by
  induction rows with
  | nil => intro st j _; rfl
  | cons r rest ih =>
    intro st j ha
    rw [List.foldl_cons]
    obtain ⟨_, g2⟩ := groupStep_lengths env st r
    rw [ih (groupStep env st r) j (by omega)]
    exact groupStep_assign_stable env st r j ha

theorem groupFold_row_outcome (env : Env) (rows : List Row) :
    ∀ (st : GState) (i : Nat) (r : Row) (m : String),
    rows[i]? = some r →
    (∀ c : Cache, rowGroupDecision env c r = (.error m, c)) →
    (List.foldl (groupStep env) st rows).preResults[st.preResults.length + i]? =
      some ("Failed", m) ∧
    (List.foldl (groupStep env) st rows).assign[st.assign.length + i]? = some none := by
  induction rows with
  | nil =>
    intro st i r m hr _
    simp at hr
  | cons r0 rest ih =>
    intro st i r m hr hdec
    rw [List.foldl_cons]
    cases i with
    | zero =>
      have hr0 : r0 = r := by simpa using hr
      subst hr0
      have hstep : groupStep env st r0 =
          ⟨st.cache, st.preResults ++ [("Failed", m)], st.assign ++ [none], st.groups,
            st.warnings ++ ["Row " ++ toString (st.assign.length + 2) ++ ": " ++ m]⟩ := by
        unfold groupStep
        rw [hdec st.cache]
      obtain ⟨g1, g2⟩ := groupStep_lengths env st r0
      constructor
      · rw [Nat.add_zero,
          groupFold_pre_stable env rest (groupStep env st r0) st.preResults.length
            (by omega),
          hstep]
        exact List.getElem?_concat_length st.preResults ("Failed", m)
      · rw [Nat.add_zero,
          groupFold_assign_stable env rest (groupStep env st r0) st.assign.length
            (by omega),
          hstep]
        exact List.getElem?_concat_length st.assign none
    | succ i' =>
      have hr' : rest[i']? = some r := by simpa using hr
      obtain ⟨g1, g2⟩ := groupStep_lengths env st r0
      obtain ⟨o1, o2⟩ := ih (groupStep env st r0) i' r m hr' hdec
      constructor
      · rw [show st.preResults.length + (i' + 1) =
            (groupStep env st r0).preResults.length + i' by rw [g1]; omega]
        exact o1
      · rw [show st.assign.length + (i' + 1) =
            (groupStep env st r0).assign.length + i' by rw [g2]; omega]
        exact o2

theorem groupRows_inv (env : Env) (rows : List Row) : GroupsInv (groupRows env rows) := by
  unfold groupRows
  have hfold : ∀ st : GState, GroupsInv st →
      GroupsInv (List.foldl (groupStep env) st rows) := by
    induction rows with
    | nil => intro st h; exact h
    | cons r rest ih =>
      intro st h
      rw [List.foldl_cons]
      exact ih (groupStep env st r) (groupStep_inv env st r h)
  apply hfold
  refine ⟨by simp [keysOf], ?_, ?_⟩
  · intro k g hg
    simp [lookupGroup] at hg
  · intro i k hik
    simp at hik

theorem rowValidationMsg_decision (env : Env) (r : Row) (m : String)
    (h : rowValidationMsg env r = some m) :
    ∀ c : Cache, rowGroupDecision env c r = (.error m, c) := by
  intro c
  unfold rowValidationMsg at h
  split at h
  · rename_i h1
    injection h with h
    subst h
    simp [rowGroupDecision, h1]
  · rename_i h1
    split at h
    · rename_i h2
      injection h with h
      subst h
      simp [rowGroupDecision, h1, h2]
    · rename_i h2
      split at h
      · rename_i h3
        injection h with h
        subst h
        rcases h3 with h3 | h3
        · simp [rowGroupDecision, h1, h2, Option.isNone_iff_eq_none.1 h3]
        · cases hpi : pyInt (pyStr r.patientId) with
          | none => simp [rowGroupDecision, h1, h2, hpi]
          | some v =>
            simp [rowGroupDecision, h1, h2, hpi, Option.isNone_iff_eq_none.1 h3]
      · exact absurd h (by simp)

theorem create_service_line_payload_dates (r : Row) (s e : String) (sl : ServiceLineReq)
    (h : create_service_line_payload r s e = some sl) :
    sl.ServiceStartDate = s ∧ sl.ServiceEndDate = e := by
  simp only [create_service_line_payload] at h
  repeat' split at h
  all_goals first
    | exact absurd h (fun hc => Option.noConfusion hc)
    | (injection h with h; subst h; exact ⟨rfl, rfl⟩)

theorem buildServiceLines_dates (L : List (Nat × Row)) (s e : String) (sl : ServiceLineReq)
    (h : sl ∈ (buildServiceLines L s e).1) :
    sl.ServiceStartDate = s ∧ sl.ServiceEndDate = e := by
  induction L with
  | nil => simp [buildServiceLines] at h
  | cons q rest ih =>
    unfold buildServiceLines at h
    cases hc : create_service_line_payload q.2 s e with
    | none => rw [hc] at h; exact ih h
    | some o =>
      rw [hc] at h
      rcases List.mem_cons.1 h with h' | h'
      · subst h'; exact create_service_line_payload_dates q.2 s e sl hc
      · exact ih h'

theorem resolveDates_end_eq (env : Env) (hdr : Row) (dosKey : String)
    (se : String × String)
    (h1 : format_datetime_for_api env hdr.throughDate = none)
    (h : resolveDates env hdr dosKey = .ok se) : se.2 = se.1 := by
  unfold resolveDates at h
  cases hf : format_datetime_for_api env hdr.fromDate with
  | none => rw [hf] at h; exact absurd h (by simp)
  | some startS =>
    rw [hf, h1] at h
    injection h with h
    rw [← h]
    rfl

theorem resolveGroupHeader_end_eq (env : Env) (cache : Cache) (practiceId : Int)
    (k : GKey) (hdr : Row) (gh : GroupHeaderInfo) (c' : Cache)
    (h1 : format_datetime_for_api env hdr.throughDate = none)
    (h : resolveGroupHeader env cache practiceId k hdr = (.ok gh, c')) :
    gh.endS = gh.startS := by
  unfold resolveGroupHeader at h
  repeat' split at h
  all_goals simp only [Prod.mk.injEq] at h
  all_goals first
    | exact Except.noConfusion h.1
    | (obtain ⟨hgh, -⟩ := h
       injection hgh with hgh
       subst hgh
       exact resolveDates_end_eq env hdr k.dos _ h1 (by assumption))

/-- When the header's through date fails to format, every issued payload
carries equal start and end dates, on the encounter and on every line. -/
theorem processGroup_calls_end_eq (env : Env) (cache : Cache) (practiceId : Int)
    (k : GKey) (g : GroupData)
    (h1 : format_datetime_for_api env g.header.throughDate = none) :
    ∀ p ∈ (processGroup env cache practiceId k g).calls,
      p.ServiceEndDate = p.ServiceStartDate ∧
      ∀ sl ∈ p.ServiceLines, sl.ServiceStartDate = p.ServiceStartDate ∧
        sl.ServiceEndDate = p.ServiceStartDate := by
  intro p hp
  unfold processGroup at hp
  split at hp
  · simp at hp
  · rename_i gh c2 heq
    have hend := resolveGroupHeader_end_eq env cache practiceId k g.header gh c2 h1 heq
    dsimp only at hp
    split at hp
    · simp at hp
    · split at hp
      · simp at hp
      · simp only [List.mem_singleton] at hp
        subst hp
        refine ⟨hend, ?_⟩
        intro sl hsl
        have hd := buildServiceLines_dates g.lines gh.startS gh.endS sl hsl
        exact ⟨hd.1, by rw [hd.2]; exact hend⟩

/-- Claim C10: when the header's through date is missing or unparseable
but the from date formats, processing behaves exactly as if the through
date equalled the from date, and every issued payload carries equal
start and end dates on the encounter and on every service line. -/
theorem C10_confirmed (env : Env) (cache : Cache) (practiceId : Int) (k : GKey)
    (hdr : Row) (lines : List (Nat × Row)) (d : String)
    (h1 : format_datetime_for_api env hdr.throughDate = none)
    (h2 : format_datetime_for_api env hdr.fromDate = some d) :
    processGroup env cache practiceId k ⟨hdr, lines⟩ =
      processGroup env cache practiceId k ⟨{ hdr with throughDate := hdr.fromDate }, lines⟩ ∧
    ∀ p ∈ (processGroup env cache practiceId k ⟨hdr, lines⟩).calls,
      p.ServiceEndDate = p.ServiceStartDate ∧
      ∀ sl ∈ p.ServiceLines, sl.ServiceStartDate = p.ServiceStartDate ∧
        sl.ServiceEndDate = p.ServiceStartDate := by
  have hd : resolveDates env hdr k.dos =
      resolveDates env { hdr with throughDate := hdr.fromDate } k.dos := by
    simp [resolveDates, h1, h2]
  constructor
  · unfold processGroup resolveGroupHeader
    rw [hd]
    rfl
  · exact processGroup_calls_end_eq env cache practiceId k ⟨hdr, lines⟩ h1

/-- Claim C10 witness: the theorem applied to a concrete row with an
unparseable through date. -/
theorem C10_witness :
    format_datetime_for_api testEnv badThroughRow.throughDate = none ∧
    format_datetime_for_api testEnv badThroughRow.fromDate = some "2025-01-02T00:00:00" ∧
    processGroup testEnv [] 1 baseKey ⟨badThroughRow, [(0, badThroughRow)]⟩ =
      processGroup testEnv [] 1 baseKey
        ⟨{ badThroughRow with throughDate := badThroughRow.fromDate }, [(0, badThroughRow)]⟩ :=
  ⟨by decide, by decide,
   (C10_confirmed testEnv [] 1 baseKey badThroughRow [(0, badThroughRow)]
     "2025-01-02T00:00:00" (by decide) (by decide)).1⟩

/-- Cross-multiplication comparison agrees with the rational order for
positive denominators. -/
theorem PyRat.lt_iff (a b : PyRat) (ha : 0 < a.den) (hb : 0 < b.den) :
    PyRat.lt a b = true ↔ a.toRat < b.toRat := by
  unfold PyRat.lt PyRat.toRat
  rw [decide_eq_true_eq]
  rw [div_lt_div_iff₀ (by exact_mod_cast ha) (by exact_mod_cast hb)]
  constructor <;> intro h <;> exact_mod_cast h

theorem pickBestAux_spec (l : List FlexCand) : ∀ best : FlexCand,
    0 < best.score.den → (∀ x ∈ l, 0 < x.score.den) →
    0 < (pickBestAux best l).score.den ∧
    best.score.toRat ≤ (pickBestAux best l).score.toRat ∧
    (∀ x ∈ l, x.score.toRat ≤ (pickBestAux best l).score.toRat) ∧
    (pickBestAux best l = best ∨
      ∃ l1 l2, l = l1 ++ (pickBestAux best l) :: l2 ∧
        best.score.toRat < (pickBestAux best l).score.toRat ∧
        ∀ x ∈ l1, x.score.toRat < (pickBestAux best l).score.toRat) := by
  induction l with
  | nil =>
    intro best hb _
    exact ⟨hb, le_refl _, by simp, Or.inl rfl⟩
  | cons x rest ih =>
    intro best hb hl
    have hx : 0 < x.score.den := hl x (List.mem_cons_self x rest)
    have hrest : ∀ y ∈ rest, 0 < y.score.den := fun y hy => hl y (List.mem_cons_of_mem x hy)
    by_cases hcmp : PyRat.lt best.score x.score = true
    · have hlt : best.score.toRat < x.score.toRat := (PyRat.lt_iff _ _ hb hx).1 hcmp
      obtain ⟨hd', hb', hall', hdisj'⟩ := ih x hx hrest
      have hred : pickBestAux best (x :: rest) = pickBestAux x rest := by
        simp only [pickBestAux, hcmp, if_true]
      rw [hred]
      refine ⟨hd', le_of_lt (lt_of_lt_of_le hlt hb'), ?_, ?_⟩
      · intro y hy
        rcases List.mem_cons.1 hy with rfl | hy
        · exact hb'
        · exact hall' y hy
      · rcases hdisj' with heq | ⟨l1, l2, hsplit, hgt, hl1⟩
        · right
          refine ⟨[], rest, ?_, ?_, by simp⟩
          · rw [heq]; rfl
          · rw [heq]; exact hlt
        · right
          refine ⟨x :: l1, l2, ?_, lt_trans hlt hgt, ?_⟩
          · rw [List.cons_append]; exact congrArg (List.cons x) hsplit
          · intro y hy
            rcases List.mem_cons.1 hy with rfl | hy
            · exact hgt
            · exact hl1 y hy
    · have hnlt : ¬ best.score.toRat < x.score.toRat := by
        intro hc
        exact hcmp ((PyRat.lt_iff _ _ hb hx).2 hc)
      have hxle : x.score.toRat ≤ best.score.toRat := le_of_not_lt hnlt
      obtain ⟨hd', hb', hall', hdisj'⟩ := ih best hb hrest
      have hred : pickBestAux best (x :: rest) = pickBestAux best rest := by
        simp only [pickBestAux, Bool.of_not_eq_true hcmp, Bool.false_eq_true, if_false]
      rw [hred]
      refine ⟨hd', hb', ?_, ?_⟩
      · intro y hy
        rcases List.mem_cons.1 hy with rfl | hy
        · exact le_trans hxle hb'
        · exact hall' y hy
      · rcases hdisj' with heq | ⟨l1, l2, hsplit, hgt, hl1⟩
        · left; exact heq
        · right
          refine ⟨x :: l1, l2, ?_, hgt, ?_⟩
          · rw [List.cons_append]; exact congrArg (List.cons x) hsplit
          · intro y hy
            rcases List.mem_cons.1 hy with rfl | hy
            · exact lt_of_le_of_lt hxle hgt
            · exact hl1 y hy

/-- `pickBest` returns the candidate with the maximal score, and among
equal maximal scores the earliest in the remote result order. -/
theorem pickBest_spec (l : List FlexCand) (c : FlexCand)
    (hd : ∀ x ∈ l, 0 < x.score.den) (h : pickBest l = some c) :
    c ∈ l ∧ (∀ x ∈ l, x.score.toRat ≤ c.score.toRat) ∧
    ∃ l1 l2, l = l1 ++ c :: l2 ∧ ∀ x ∈ l1, x.score.toRat < c.score.toRat := by
  cases l with
  | nil => simp [pickBest] at h
  | cons c0 rest =>
    simp only [pickBest, Option.some.injEq] at h
    obtain ⟨hd', hb', hall', hdisj'⟩ := pickBestAux_spec rest c0
      (hd c0 (List.mem_cons_self c0 rest)) (fun y hy => hd y (List.mem_cons_of_mem c0 hy))
    rw [h] at hb' hall' hdisj'
    refine ⟨?_, ?_, ?_⟩
    · rcases hdisj' with heq | ⟨l1, l2, hsplit, hgt, hl1⟩
      · rw [heq]; exact List.mem_cons_self _ _
      · rw [hsplit]
        exact List.mem_cons_of_mem c0 (List.mem_append_right l1 (List.mem_cons_self _ _))
    · intro y hy
      rcases List.mem_cons.1 hy with rfl | hy
      · exact hb'
      · exact hall' y hy
    · rcases hdisj' with heq | ⟨l1, l2, hsplit, hgt, hl1⟩
      · exact ⟨[], rest, by rw [heq]; rfl, by simp⟩
      · refine ⟨c0 :: l1, l2, by rw [List.cons_append]; exact congrArg (List.cons c0) hsplit, ?_⟩
        intro y hy
        rcases List.mem_cons.1 hy with rfl | hy
        · exact hgt
        · exact hl1 y hy

/-- Claim C1 (amended): when the resolved group header is available and at
least one row of the group fails service-line creation, the whole group
fails with a "Service Line Payload Errors" message listing the bad lines,
and the remote `CreateEncounter` call is never made; a group reaches the
remote call only when every one of its rows yields a valid line. -/
theorem C1_corrected (env : Env) (cache : Cache) (practiceId : Int) (k : GKey)
    (g : GroupData) (gh : GroupHeaderInfo) (c' : Cache)
    (hh : resolveGroupHeader env cache practiceId k g.header = (.ok gh, c'))
    (hbad : ∃ p ∈ g.lines, create_service_line_payload p.2 gh.startS gh.endS = none) :
    (processGroup env cache practiceId k g).status = "Failed" ∧
    (processGroup env cache practiceId k g).message =
      "Service Line Payload Errors: " ++
        joinSep "; " (buildServiceLines g.lines gh.startS gh.endS).2 ∧
    (processGroup env cache practiceId k g).calls = [] := by
  obtain ⟨p, hp, hn⟩ := hbad
  have herr := buildServiceLines_err_of_mem g.lines gh.startS gh.endS p hp hn
  unfold processGroup
  rw [hh]
  simp [herr]

/-- Claim C1, as stated, is false: in a group with one valid line and one
line with a blank diagnosis 1, the invalid line is not merely dropped --
the remote call is never issued and the whole group fails. -/
theorem C1_counterexample :
    (create_service_line_payload baseRow "2025-01-02T00:00:00" "2025-01-02T00:00:00").isSome
      = true ∧
    create_service_line_payload badDiagRow "2025-01-02T00:00:00" "2025-01-02T00:00:00"
      = none ∧
    (processGroup testEnv [] 1 baseKey ⟨baseRow, [(0, baseRow), (1, badDiagRow)]⟩).calls
      = [] ∧
    (processGroup testEnv [] 1 baseKey ⟨baseRow, [(0, baseRow), (1, badDiagRow)]⟩).status
      = "Failed" := by
  refine ⟨by decide, by decide, by decide, by decide⟩

/-- Claim C1 witness: the amended theorem applied to the concrete
two-line group of the counterexample environment. -/
theorem C1_witness :
    resolveGroupHeader testEnv [] 1 baseKey baseRow =
      (.ok ⟨5, 9, none, none, "2025-01-02T00:00:00", "2025-01-02T00:00:00", ⟨"11", "Office"⟩⟩,
        [("location_id_1_Main Office", some 9), ("provider_id_1_Alice Smith", some 5)]) ∧
    (processGroup testEnv [] 1 baseKey ⟨baseRow, [(0, baseRow), (1, badDiagRow)]⟩).status
      = "Failed" := by
  have hh : resolveGroupHeader testEnv [] 1 baseKey baseRow =
      (.ok ⟨5, 9, none, none, "2025-01-02T00:00:00", "2025-01-02T00:00:00", ⟨"11", "Office"⟩⟩,
        [("location_id_1_Main Office", some 9), ("provider_id_1_Alice Smith", some 5)]) := by
    rfl
  refine ⟨hh, ?_⟩
  exact (C1_corrected testEnv [] 1 baseKey ⟨baseRow, [(0, baseRow), (1, badDiagRow)]⟩ _ _ hh
    ⟨(1, badDiagRow), by decide, by decide⟩).1

/-- Claim C3 (amended): a non-empty group none of whose rows yields a
valid service line fails -- with the "Service Line Payload Errors"
message listing every line (the "No valid service lines were created"
message of line 611 is unreachable for non-empty groups) -- and the
remote `CreateEncounter` call is never made. -/
theorem C3_corrected (env : Env) (cache : Cache) (practiceId : Int) (k : GKey)
    (g : GroupData) (gh : GroupHeaderInfo) (c' : Cache)
    (hh : resolveGroupHeader env cache practiceId k g.header = (.ok gh, c'))
    (hne : g.lines ≠ [])
    (hall : ∀ p ∈ g.lines, create_service_line_payload p.2 gh.startS gh.endS = none) :
    (processGroup env cache practiceId k g).status = "Failed" ∧
    (processGroup env cache practiceId k g).message =
      "Service Line Payload Errors: " ++
        joinSep "; " (buildServiceLines g.lines gh.startS gh.endS).2 ∧
    (processGroup env cache practiceId k g).calls = [] := by
  obtain ⟨p, rest, hcons⟩ := List.exists_cons_of_ne_nil hne
  have hp : p ∈ g.lines := by rw [hcons]; exact List.mem_cons_self p rest
  have herr := buildServiceLines_err_of_mem g.lines gh.startS gh.endS p hp (hall p hp)
  unfold processGroup
  rw [hh]
  simp [herr]

/-- Claim C3, as stated, is false on the message: a group whose two lines
both have non-positive units fails without any remote call, but with the
"Service Line Payload Errors" message, not "no valid service lines
created". -/
theorem C3_counterexample :
    create_service_line_payload zeroUnitsRow "2025-01-02T00:00:00" "2025-01-02T00:00:00"
      = none ∧
    (processGroup testEnv [] 1 baseKey
        ⟨zeroUnitsRow, [(0, zeroUnitsRow), (1, zeroUnitsRow)]⟩).calls = [] ∧
    (processGroup testEnv [] 1 baseKey
        ⟨zeroUnitsRow, [(0, zeroUnitsRow), (1, zeroUnitsRow)]⟩).status = "Failed" ∧
    (processGroup testEnv [] 1 baseKey
        ⟨zeroUnitsRow, [(0, zeroUnitsRow), (1, zeroUnitsRow)]⟩).message ≠
      "No valid service lines were created for this encounter." ∧
    (processGroup testEnv [] 1 baseKey
        ⟨zeroUnitsRow, [(0, zeroUnitsRow), (1, zeroUnitsRow)]⟩).message =
      "Service Line Payload Errors: SvcLine for Proc '99213' (orig Excel row 2) failed creation.; SvcLine for Proc '99213' (orig Excel row 3) failed creation." := by
  refine ⟨by decide, by decide, by decide, by decide, by decide⟩

/-- Claim C3 witness: the amended theorem applied to the concrete
all-invalid two-line group. -/
theorem C3_witness :
    (processGroup testEnv [] 1 baseKey
        ⟨zeroUnitsRow, [(0, zeroUnitsRow), (1, zeroUnitsRow)]⟩).status = "Failed" ∧
    (processGroup testEnv [] 1 baseKey
        ⟨zeroUnitsRow, [(0, zeroUnitsRow), (1, zeroUnitsRow)]⟩).calls = [] := by
  have hh : resolveGroupHeader testEnv [] 1 baseKey zeroUnitsRow =
      (.ok ⟨5, 9, none, none, "2025-01-02T00:00:00", "2025-01-02T00:00:00", ⟨"11", "Office"⟩⟩,
        [("location_id_1_Main Office", some 9), ("provider_id_1_Alice Smith", some 5)]) := by
    rfl
  have h := C3_corrected testEnv [] 1 baseKey
    ⟨zeroUnitsRow, [(0, zeroUnitsRow), (1, zeroUnitsRow)]⟩ _ _ hh (by decide) (by decide)
  exact ⟨h.1, h.2.2⟩

/-- Claim C5: provider, location and case resolution cache their outcome
(including NotFound) under the (practiceId, name) / patientId key, so an
immediate second resolution with the same key issues zero remote queries
and returns the first call's outcome unchanged. -/
theorem C5_resolution_cached (env : Env) (cache : Cache) (practiceId patientId : Int)
    (pname lname : String)
    (hp : practiceId ≠ 0) (hpn : pname ≠ "") (hpt : pyTrim pname ≠ "")
    (hln : lname ≠ "") (hlt : pyTrim lname ≠ "") :
    (get_provider_id_by_name env
        (get_provider_id_by_name env cache practiceId pname).2.1 practiceId pname =
      ((get_provider_id_by_name env cache practiceId pname).1,
       (get_provider_id_by_name env cache practiceId pname).2.1, 0)) ∧
    (get_location_id_by_name env
        (get_location_id_by_name env cache practiceId lname).2.1 practiceId lname =
      ((get_location_id_by_name env cache practiceId lname).1,
       (get_location_id_by_name env cache practiceId lname).2.1, 0)) ∧
    (get_primary_case_for_patient env
        (get_primary_case_for_patient env cache patientId).2.1 patientId =
      ((get_primary_case_for_patient env cache patientId).1,
       (get_primary_case_for_patient env cache patientId).2.1, 0)) := by
  have hcond : ¬ (practiceId = 0 ∨ pname = "") := by push_neg; exact ⟨hp, hpn⟩
  have hcondl : ¬ (practiceId = 0 ∨ lname = "") := by push_neg; exact ⟨hp, hln⟩
  refine ⟨?_, ?_, ?_⟩
  · unfold get_provider_id_by_name
    simp only [hcond, if_false, hpt, if_neg]
    cases hcl : cacheLookup cache (providerCacheKey practiceId (pyTrim pname)) with
    | some v => simp [hcl, hpt]
    | none =>
      cases hf : (env.getProvidersExact practiceId (pyTrim pname)).find?
          (exactActiveMatch (pyTrim pname)) with
      | some p => simp [hcl, hf, hpt, cacheLookup_insert_self]
      | none => simp [hcl, hf, hpt, cacheLookup_insert_self]
  · unfold get_location_id_by_name
    simp only [hcondl, if_false, hlt, if_neg]
    cases hcl : cacheLookup cache (locationCacheKey practiceId (pyTrim lname)) with
    | some v => simp [hcl, hlt]
    | none => simp [hcl, hlt, cacheLookup_insert_self]
  · unfold get_primary_case_for_patient
    cases hcl : cacheLookup cache (caseCacheKey patientId) with
    | some v => simp [hcl]
    | none => simp [hcl, cacheLookup_insert_self]

/-- Claim C5 witness: the provider conjunct applied to the concrete test
environment. -/
theorem C5_witness :
    ((1 : Int) ≠ 0 ∧ "Alice Smith" ≠ "" ∧ pyTrim "Alice Smith" ≠ "" ∧
      "Main Office" ≠ "" ∧ pyTrim "Main Office" ≠ "") ∧
    (get_provider_id_by_name testEnv
        (get_provider_id_by_name testEnv [] 1 "Alice Smith").2.1 1 "Alice Smith" =
      ((get_provider_id_by_name testEnv [] 1 "Alice Smith").1,
       (get_provider_id_by_name testEnv [] 1 "Alice Smith").2.1, 0)) :=
  ⟨⟨by decide, by decide, by decide, by decide, by decide⟩,
    (C5_resolution_cached testEnv [] 1 12 "Alice Smith" "Main Office"
      (by decide) (by decide) (by decide) (by decide) (by decide)).1⟩

/-- Claim C2 (amended): the classifier returns the raw message unchanged
when nothing parses, provided the message does not contain "<Encounter";
when it does contain "<Encounter" and no per-line sub-error and no
encounter-level 6100 tag parses, the result is instead the generic
"no specific line errors parsed" sentence when the (prefix-stripped,
trimmed) text starts with "<Encounter", or that stripped text (not the
original) otherwise. -/
theorem C2_corrected :
    (∀ s p d, strContains s "<Encounter" = false →
      parse_and_simplify_tebra_xml_error s p d = s) ∧
    (∀ s p d, strContains s "<Encounter" = true →
      serviceLineErrors (strippedXml s) = [] →
      searchErr6100 (strippedXml s) = none →
      parse_and_simplify_tebra_xml_error s p d =
        (if pyStartsWith (strippedXml s) "<Encounter" then noLineErrorsGeneric
         else strippedXml s)) := by
  constructor
  · intro s p d h
    simp [parse_and_simplify_tebra_xml_error, h]
  · intro s p d h hsl h61
    simp only [parse_and_simplify_tebra_xml_error, h, hsl, h61]
    simp [dedupKeepFirst, joinSep]

/-- Claim C2, as stated, is false: on "<Encounter/>" nothing parses, yet
the original message is replaced by the generic sentence. -/
theorem C2_counterexample :
    serviceLineErrors "<Encounter/>" = [] ∧
    searchErr6100 "<Encounter/>" = none ∧
    parse_and_simplify_tebra_xml_error "<Encounter/>" "N/A" "N/A" = noLineErrorsGeneric ∧
    parse_and_simplify_tebra_xml_error "<Encounter/>" "N/A" "N/A" ≠ "<Encounter/>" := by
  refine ⟨by decide, by decide, by decide, by decide⟩

/-- Claim C2 witness: the amended theorem applied to a plain fault string
(returned unchanged) and to a prefixed fragment (returned stripped). -/
theorem C2_witness :
    (strContains "Transport fault" "<Encounter" = false ∧
      parse_and_simplify_tebra_xml_error "Transport fault" "N/A" "N/A" = "Transport fault") ∧
    (strContains "API Error: zz <Encounterq" "<Encounter" = true ∧
      serviceLineErrors (strippedXml "API Error: zz <Encounterq") = [] ∧
      searchErr6100 (strippedXml "API Error: zz <Encounterq") = none ∧
      parse_and_simplify_tebra_xml_error "API Error: zz <Encounterq" "N/A" "N/A" =
        "zz <Encounterq") :=
  ⟨⟨by decide, C2_corrected.1 "Transport fault" "N/A" "N/A" (by decide)⟩,
   ⟨by decide, by decide, by decide,
    (C2_corrected.2 "API Error: zz <Encounterq" "N/A" "N/A"
        (by decide) (by decide) (by decide)).trans (by decide)⟩⟩

/-- Claim C7 (amended): place-of-service resolution uses the fixed
case-insensitive table, else accepts a 1-2 digit numeric string, else
fails; a present but whitespace-only place-of-service string falls back
to the encounter-mode field, and when both are present-but-blank strings
the group fails with the message naming both; a missing (NaN)
place-of-service cell however stringifies to "nan" and is passed to POS
resolution (no fallback); any header resolution error fails the group
with that message and no remote call. -/
theorem C7_corrected :
    (∀ s cn, pyTrim s ≠ "" → posMapLookup (pyUpper (pyTrim s)) = some cn →
      create_place_of_service_payload (some s) = some ⟨cn.1, cn.2⟩) ∧
    (∀ s, pyTrim s ≠ "" → posMapLookup (pyUpper (pyTrim s)) = none →
      pyIsdigit (pyTrim s) = true → (pyTrim s).length ≤ 2 →
      create_place_of_service_payload (some s) =
        some ⟨pyTrim s, posNameForCode (pyTrim s) (pyTrim s)⟩) ∧
    (∀ s, pyTrim s ≠ "" → posMapLookup (pyUpper (pyTrim s)) = none →
      ¬ (pyIsdigit (pyTrim s) = true ∧ (pyTrim s).length ≤ 2) →
      create_place_of_service_payload (some s) = none) ∧
    (∀ hdr : Row, ∀ sp m : String, hdr.placeOfService = some sp → pyTrim sp = "" →
      hdr.encounterMode = some m → pyTrim m ≠ "" →
      resolvePosInput hdr = .ok (pyTrim m)) ∧
    (∀ hdr : Row, ∀ sp sm : String, hdr.placeOfService = some sp → pyTrim sp = "" →
      hdr.encounterMode = some sm → pyTrim sm = "" →
      resolvePosInput hdr =
        .error "Both 'Place of Service' & 'Encounter Mode' are missing.") ∧
    (∀ hdr : Row, hdr.placeOfService = none → resolvePosInput hdr = .ok "nan") ∧
    (∀ env cache practiceId k g m c',
      resolveGroupHeader env cache practiceId k g.header = (.error m, c') →
      processGroup env cache practiceId k g = ⟨"Failed", m, [], c'⟩) := by
  refine ⟨?_, ?_, ?_, ?_, ?_, ?_, ?_⟩
  · intro s cn hne hmap
    simp [create_place_of_service_payload, isna, pyStr, hne, hmap]
  · intro s hne hmap hdig hlen
    simp [create_place_of_service_payload, isna, pyStr, hne, hmap, hdig, hlen]
  · intro s hne hmap hbad
    rw [Decidable.not_and_iff_or_not] at hbad
    rcases hbad with h | h
    · simp [create_place_of_service_payload, isna, pyStr, hne, hmap,
        Bool.of_not_eq_true h]
    · simp [create_place_of_service_payload, isna, pyStr, hne, hmap, h]
  · intro hdr sp m hsp htr hm hmt
    simp [resolvePosInput, hsp, hm, pyStr, htr, hmt]
  · intro hdr sp sm hsp htr hm hmt
    simp [resolvePosInput, hsp, hm, pyStr, htr, hmt]
  · intro hdr hsp
    have : pyTrim (pyStr hdr.placeOfService) = "nan" := by rw [hsp]; rfl
    simp [resolvePosInput, this]
  · intro env cache practiceId k g m c' h
    exact processGroup_header_error env cache practiceId k g m c' h

/-- Claim C7, as stated, is false for a missing (NaN) place-of-service
cell: despite a valid encounter mode, no fallback happens and the group
fails with "POS payload creation failed for 'nan'." and no remote
call. -/
theorem C7_counterexample :
    nanPosRow.placeOfService = none ∧
    nanPosRow.encounterMode = some "OFFICE" ∧
    posMapLookup "OFFICE" = some ("11", "Office") ∧
    (processGroup testEnv [] 1 baseKey ⟨nanPosRow, [(0, nanPosRow)]⟩).status = "Failed" ∧
    (processGroup testEnv [] 1 baseKey ⟨nanPosRow, [(0, nanPosRow)]⟩).message =
      "POS payload creation failed for 'nan'." ∧
    (processGroup testEnv [] 1 baseKey ⟨nanPosRow, [(0, nanPosRow)]⟩).calls = [] := by
  refine ⟨by decide, by decide, by decide, by decide, by decide, by decide⟩

/-- Claim C7 witness: the both-blank conjunct applied to a concrete
header row. -/
theorem C7_witness :
    (pyTrim " " = "" ∧ pyTrim "" = "") ∧
    resolvePosInput { baseRow with placeOfService := some " ", encounterMode := some "" } =
      .error "Both 'Place of Service' & 'Encounter Mode' are missing." :=
  ⟨⟨by decide, by decide⟩,
   C7_corrected.2.2.2.2.1 { baseRow with placeOfService := some " ", encounterMode := some "" }
     " " "" (by decide) (by decide) (by decide) (by decide)⟩

/-- Claim C4: the fuzzy provider phase is entered only when the exact
phase finds no active exact match (a cached-miss exact hit answers after
one query; otherwise the broad query is issued and the fuzzy pick is
cached, two queries); an active named candidate scores 100 on an exact
lower-cased match and otherwise (matched/total)*90 where matched counts
search tokens occurring as substrings of the candidate name; a non-exact
candidate is accepted iff strictly more than 7/9 of the tokens match
(score > 70); and the best candidate is the earliest one attaining the
maximal score. -/
theorem C4_confirmed :
    (∀ (env : Env) (cache : Cache) (practiceId : Int) (name : String) (p : ProviderData),
      practiceId ≠ 0 → name ≠ "" → pyTrim name ≠ "" →
      cacheLookup cache (providerCacheKey practiceId (pyTrim name)) = none →
      (env.getProvidersExact practiceId (pyTrim name)).find?
          (exactActiveMatch (pyTrim name)) = some p →
      get_provider_id_by_name env cache practiceId name =
        (some (p.ID.getD 0),
         cacheInsert cache (providerCacheKey practiceId (pyTrim name)) (some (p.ID.getD 0)),
         1)) ∧
    (∀ (env : Env) (cache : Cache) (practiceId : Int) (name : String),
      practiceId ≠ 0 → name ≠ "" → pyTrim name ≠ "" →
      cacheLookup cache (providerCacheKey practiceId (pyTrim name)) = none →
      (env.getProvidersExact practiceId (pyTrim name)).find?
          (exactActiveMatch (pyTrim name)) = none →
      get_provider_id_by_name env cache practiceId name =
        ((pickBest (fuzzyCandidates (pyLower (pyTrim name)) (providerTerms (pyTrim name))
            (env.getProvidersBroad practiceId))).map (fun c => c.ID),
         cacheInsert cache (providerCacheKey practiceId (pyTrim name))
           ((pickBest (fuzzyCandidates (pyLower (pyTrim name)) (providerTerms (pyTrim name))
              (env.getProvidersBroad practiceId))).map (fun c => c.ID)),
         2)) ∧
    (∀ (searchLower : String) (terms : List String) (p : ProviderData) (i : Int),
      providerActive p = true → p.ID = some i → nameApiOf p ≠ "" →
      nameApiOf p = searchLower →
      flexCandOf searchLower terms p = [⟨i, p.FullName.getD "", ⟨100, 1⟩⟩]) ∧
    (∀ (searchLower : String) (terms : List String) (p : ProviderData) (i : Int),
      providerActive p = true → p.ID = some i → nameApiOf p ≠ "" →
      nameApiOf p ≠ searchLower → terms ≠ [] →
      fuzzyScore searchLower terms (nameApiOf p) =
        ⟨(terms.countP (fun t => strContains (nameApiOf p) t) : Int) * 90, terms.length⟩ ∧
      (fuzzyScore searchLower terms (nameApiOf p)).toRat =
        ((terms.countP (fun t => strContains (nameApiOf p) t) : ℚ) / (terms.length : ℚ)) * 90 ∧
      (flexCandOf searchLower terms p ≠ [] ↔
        ((terms.countP (fun t => strContains (nameApiOf p) t) : ℚ) / (terms.length : ℚ))
          > 7 / 9)) ∧
    (∀ (l : List FlexCand) (c : FlexCand), (∀ x ∈ l, 0 < x.score.den) →
      pickBest l = some c →
      c ∈ l ∧ (∀ x ∈ l, x.score.toRat ≤ c.score.toRat) ∧
      ∃ l1 l2, l = l1 ++ c :: l2 ∧ ∀ x ∈ l1, x.score.toRat < c.score.toRat) := by
  refine ⟨?_, ?_, ?_, ?_, ?_⟩
  · intro env cache practiceId name p hp hn ht hcl hf
    have hcond : ¬ (practiceId = 0 ∨ name = "") := by push_neg; exact ⟨hp, hn⟩
    unfold get_provider_id_by_name
    simp [hcond, ht, hcl, hf]
  · intro env cache practiceId name hp hn ht hcl hf
    have hcond : ¬ (practiceId = 0 ∨ name = "") := by push_neg; exact ⟨hp, hn⟩
    unfold get_provider_id_by_name
    simp [hcond, ht, hcl, hf]
  · intro searchLower terms p i hact hid hne heq
    have hne' : searchLower ≠ "" := heq ▸ hne
    simp [flexCandOf, hact, hne', heq, fuzzyScore, hid, PyRat.lt]
  · intro searchLower terms p i hact hid hne hneq hterms
    have hlen : 0 < terms.length := List.length_pos.2 hterms
    have hsc : fuzzyScore searchLower terms (nameApiOf p) =
        ⟨(terms.countP (fun t => strContains (nameApiOf p) t) : Int) * 90, terms.length⟩ := by
      simp [fuzzyScore, hneq, hterms]
    refine ⟨hsc, ?_, ?_⟩
    · rw [hsc]
      unfold PyRat.toRat
      push_cast
      ring
    · have hmem : flexCandOf searchLower terms p ≠ [] ↔
          PyRat.lt ⟨70, 1⟩ (fuzzyScore searchLower terms (nameApiOf p)) = true := by
        constructor
        · intro hnil
          by_contra hlt
          simp [flexCandOf, hact, hne, hlt, hid] at hnil
        · intro hlt
          simp [flexCandOf, hact, hne, hlt, hid]
      rw [hmem, hsc]
      unfold PyRat.lt
      rw [decide_eq_true_eq]
      rw [gt_iff_lt, div_lt_div_iff₀ (by norm_num) (by exact_mod_cast hlen)]
      constructor
      · intro h
        have h' : (70 : Int) * terms.length <
            (terms.countP (fun t => strContains (nameApiOf p) t) : Int) * 90 := by
          simpa using h
        have : (70 : ℚ) * terms.length <
            (terms.countP (fun t => strContains (nameApiOf p) t) : ℚ) * 90 := by
          exact_mod_cast h'
        linarith
      · intro h
        have h' : (70 : ℚ) * terms.length <
            (terms.countP (fun t => strContains (nameApiOf p) t) : ℚ) * 90 := by
          linarith
        have : (70 : Int) * terms.length <
            (terms.countP (fun t => strContains (nameApiOf p) t) : Int) * 90 := by
          exact_mod_cast h'
        simpa using this
  · exact pickBest_spec

/-- Claim C4 witness: the exact-phase conjunct applied to the concrete
test environment. -/
theorem C4_witness :
    ((1 : Int) ≠ 0 ∧ "Alice Smith" ≠ "" ∧ pyTrim "Alice Smith" ≠ "" ∧
      cacheLookup [] (providerCacheKey 1 (pyTrim "Alice Smith")) = none ∧
      (testEnv.getProvidersExact 1 (pyTrim "Alice Smith")).find?
          (exactActiveMatch (pyTrim "Alice Smith")) =
        some ⟨some 5, some "Alice Smith", some (.b true)⟩) ∧
    get_provider_id_by_name testEnv [] 1 "Alice Smith" =
      (some 5, cacheInsert [] (providerCacheKey 1 (pyTrim "Alice Smith")) (some 5), 1) :=
  ⟨⟨by decide, by decide, by decide, by decide, by decide⟩,
   C4_confirmed.1 testEnv [] 1 "Alice Smith" ⟨some 5, some "Alice Smith", some (.b true)⟩
     (by decide) (by decide) (by decide) (by decide) (by decide)⟩

/-- Claim C6: any two rows assigned to the same encounter group key
receive identical final status and message from `process_excel_data`,
whatever the group outcome. -/
theorem C6_confirmed (env : Env) (practiceId : Int) (rows : List Row) (i j : Nat) (k : GKey)
    (hi : (groupRows env rows).assign[i]? = some (some k))
    (hj : (groupRows env rows).assign[j]? = some (some k)) :
    (process_excel_data env practiceId rows).results[i]? =
    (process_excel_data env practiceId rows).results[j]? := by
  obtain ⟨hnd, hmem, hass⟩ := groupRows_inv env rows
  obtain ⟨g, hg, hgi⟩ := hass i k hi
  obtain ⟨g', hg', hgj⟩ := hass j k hj
  rw [hg] at hg'
  injection hg' with hg'
  subst hg'
  have hmemEntry : (k, g) ∈ (groupRows env rows).groups :=
    (mem_iff_lookupGroup _ hnd k g).2 hg
  obtain ⟨L1, L2, hsplit⟩ := List.append_of_mem hmemEntry
  have hknotin : k ∉ keysOf L2 := by
    have hnd' := hnd
    rw [hsplit] at hnd'
    simp only [keysOf, List.map_append, List.map_cons] at hnd'
    have := List.Nodup.of_append_right hnd'
    exact (List.nodup_cons.1 this).1
  have keyEq : ∀ e' ∈ L2, ∀ i' : Nat, i' ∈ memberIdxs e'.2 →
      (groupRows env rows).assign[i']? = some (some e'.1) := by
    intro e' he' i' hmem'
    have he'' : e' ∈ (groupRows env rows).groups := by
      rw [hsplit]
      exact List.mem_append_right L1 (List.mem_cons_of_mem _ he')
    obtain ⟨ke, ge⟩ := e'
    exact hmem ke ge ((mem_iff_lookupGroup _ hnd ke ge).1 he'') i' hmem'
  have hnL2i : ∀ e' ∈ L2, i ∉ memberIdxs e'.2 := by
    intro e' he' hc
    have heq := keyEq e' he' i hc
    rw [hi] at heq
    injection heq with heq
    injection heq with heq
    exact hknotin (heq ▸ List.mem_map_of_mem Prod.fst he')
  have hnL2j : ∀ e' ∈ L2, j ∉ memberIdxs e'.2 := by
    intro e' he' hc
    have heq := keyEq e' he' j hc
    rw [hj] at heq
    injection heq with heq
    injection heq with heq
    exact hknotin (heq ▸ List.mem_map_of_mem Prod.fst he')
  have hilt : i < (groupRows env rows).assign.length := (List.getElem?_eq_some.1 hi).1
  have hjlt : j < (groupRows env rows).assign.length := (List.getElem?_eq_some.1 hj).1
  have hlens := groupFold_lengths env rows ⟨[], [], [], [], []⟩
  have hpre : (groupRows env rows).preResults.length = rows.length := by
    have := hlens.1
    simpa [groupRows] using this
  have hasn : (groupRows env rows).assign.length = rows.length := by
    have := hlens.2
    simpa [groupRows] using this
  unfold process_excel_data
  dsimp only
  rw [hsplit]
  exact processGroups_pair_eq env practiceId L1 L2 (k, g) i j hgi hgj hnL2i hnL2j
    ⟨(groupRows env rows).preResults, 0, 0, (groupRows env rows).cache, []⟩
    (by show i < (groupRows env rows).preResults.length; omega)
    (by show j < (groupRows env rows).preResults.length; omega)

/-- Claim C6 witness: two concrete rows sharing a key end with equal
results. -/
theorem C6_witness :
    ((groupRows testEnv [baseRow, baseRow]).assign[0]? = some (some baseKey) ∧
      (groupRows testEnv [baseRow, baseRow]).assign[1]? = some (some baseKey)) ∧
    (process_excel_data testEnv 1 [baseRow, baseRow]).results[0]? =
      (process_excel_data testEnv 1 [baseRow, baseRow]).results[1]? :=
  ⟨⟨by decide, by decide⟩,
   C6_confirmed testEnv 1 [baseRow, baseRow] 0 1 baseKey (by decide) (by decide)⟩

/-- Claim C8: a row whose patient id is absent or non-numeric, or whose
from date is absent or unparseable, ends Failed with the validation
message naming the offending field, is assigned to no group key, and
appears in no encounter group. -/
theorem C8_confirmed (env : Env) (practiceId : Int) (rows : List Row) (i : Nat)
    (r : Row) (m : String) (hr : rows[i]? = some r)
    (hm : rowValidationMsg env r = some m) :
    (process_excel_data env practiceId rows).results[i]? = some ("Failed", m) ∧
    (groupRows env rows).assign[i]? = some none ∧
    ∀ e ∈ (groupRows env rows).groups, i ∉ memberIdxs e.2 := by
  have hdec := rowValidationMsg_decision env r m hm
  have hout := groupFold_row_outcome env rows ⟨[], [], [], [], []⟩ i r m hr hdec
  simp only [List.length_nil, Nat.zero_add] at hout
  obtain ⟨hpre, hass⟩ := hout
  have hpre' : (groupRows env rows).preResults[i]? = some ("Failed", m) := hpre
  have hass' : (groupRows env rows).assign[i]? = some none := hass
  obtain ⟨hnd, hmem, _⟩ := groupRows_inv env rows
  have hnm : ∀ e ∈ (groupRows env rows).groups, i ∉ memberIdxs e.2 := by
    intro e he hc
    obtain ⟨ke, ge⟩ := e
    have := hmem ke ge ((mem_iff_lookupGroup _ hnd ke ge).1 he) i hc
    rw [hass'] at this
    injection this with this
    exact Option.noConfusion this
  refine ⟨?_, hass', hnm⟩
  unfold process_excel_data
  dsimp only
  rw [processGroups_get_untouched env practiceId (groupRows env rows).groups i
    ⟨(groupRows env rows).preResults, 0, 0, (groupRows env rows).cache, []⟩ hnm]
  exact hpre'

/-- Claim C8 witness: the theorem applied to a concrete row with a
non-numeric patient id. -/
theorem C8_witness :
    ([{ baseRow with patientId := some "abc" }][0]? =
        some { baseRow with patientId := some "abc" } ∧
      rowValidationMsg testEnv { baseRow with patientId := some "abc" } =
        some "Invalid format for 'Patient ID' ('abc') or 'From Date' ('2025-01-02').") ∧
    (process_excel_data testEnv 1 [{ baseRow with patientId := some "abc" }]).results[0]? =
      some ("Failed", "Invalid format for 'Patient ID' ('abc') or 'From Date' ('2025-01-02').") :=
  ⟨⟨by decide, by decide⟩,
   (C8_confirmed testEnv 1 [{ baseRow with patientId := some "abc" }] 0
     { baseRow with patientId := some "abc" }
     "Invalid format for 'Patient ID' ('abc') or 'From Date' ('2025-01-02')."
     (by decide) (by decide)).1⟩

theorem outputColumns_fold_noop (L : List String) :
    ∀ acc : List String, (∀ col ∈ L, col ∈ acc ∨ col = origRowNumCol) →
    L.foldl (fun acc col => if col ∉ acc ∧ col ≠ origRowNumCol then acc ++ [col] else acc)
      acc = acc := by
  induction L with
  | nil => intro acc _; rfl
  | cons c rest ih =>
    intro acc h
    rw [List.foldl_cons]
    have hc := h c (List.mem_cons_self c rest)
    have hstep : (if c ∉ acc ∧ c ≠ origRowNumCol then acc ++ [c] else acc) = acc := by
      rcases hc with hc | hc
      · rw [if_neg]
        intro h'
        exact h'.1 hc
      · rw [if_neg]
        intro h'
        exact h'.2 hc
    rw [hstep]
    exact ih acc (fun col hcol => h col (List.mem_cons_of_mem c hcol))

/-- The normal-path output column order for an input whose columns are
the Excel columns (none of them a result or internal column) plus the
internal row-number column: the two result columns are appended and the
internal column removed. -/
theorem outputColumnOrder_eq (excelCols : List String)
    (h1 : chargeEntryStatusCol ∉ excelCols) (h2 : resultMessageCol ∉ excelCols)
    (h3 : origRowNumCol ∉ excelCols) :
    outputColumnOrder (excelCols ++ [origRowNumCol]) =
      excelCols ++ [chargeEntryStatusCol, resultMessageCol] := by
  have hne1 : chargeEntryStatusCol ∉ excelCols ++ [origRowNumCol] := by
    simp only [List.mem_append, List.mem_singleton]
    push_neg
    exact ⟨h1, by decide⟩
  have hne2 : resultMessageCol ∉ excelCols ++ [origRowNumCol] := by
    simp only [List.mem_append, List.mem_singleton]
    push_neg
    exact ⟨h2, by decide⟩
  have hne2h : resultMessageCol ∉ (excelCols ++ [origRowNumCol]) ++ [chargeEntryStatusCol] := by
    simp only [List.mem_append, List.mem_singleton]
    push_neg
    exact ⟨⟨h2, by decide⟩, by decide⟩
  simp only [outputColumnOrder, if_neg hne1, if_neg hne2h, if_neg hne2]
  have herase : (((excelCols ++ [origRowNumCol]) ++ [chargeEntryStatusCol]) ++
      [resultMessageCol]).erase origRowNumCol =
      excelCols ++ [chargeEntryStatusCol, resultMessageCol] := by
    rw [List.append_assoc, List.append_assoc, List.erase_append_right _ h3]
    rfl
  rw [herase]
  apply outputColumns_fold_noop
  intro col hcol
  simp only [List.mem_append, List.mem_singleton] at hcol
  rcases hcol with ((hcol | hcol) | hcol) | hcol
  · exact Or.inl (List.mem_append_left _ hcol)
  · exact Or.inr hcol
  · exact Or.inl (by simp [hcol])
  · exact Or.inl (by simp [hcol])

theorem dedupFold_extend (L : List String) :
    ∀ acc : List String, L.Nodup → (∀ x ∈ L, x ∉ acc) →
    L.foldl (fun acc x => if x ∈ acc then acc else acc ++ [x]) acc = acc ++ L := by
  induction L with
  | nil => intro acc _ _; simp
  | cons c rest ih =>
    intro acc hnd hnin
    rw [List.foldl_cons]
    have hc : c ∉ acc := hnin c (List.mem_cons_self c rest)
    rw [if_neg hc]
    have hnd2 : rest.Nodup := (List.nodup_cons.1 hnd).2
    have hcnot : c ∉ rest := (List.nodup_cons.1 hnd).1
    have hstep := ih (acc ++ [c]) hnd2 (by
      intro x hx
      simp only [List.mem_append, List.mem_singleton]
      push_neg
      exact ⟨hnin x (List.mem_cons_of_mem c hx), fun he => hcnot (he ▸ hx)⟩)
    rw [hstep, List.append_assoc]
    rfl

/-- The early-return column list keeps the internal row-number column:
for Excel columns free of the three special names, it is the input
columns plus THREE appended columns. -/
theorem finalColsOnNoGroups_eq (excelCols : List String)
    (h1 : chargeEntryStatusCol ∉ excelCols) (h2 : resultMessageCol ∉ excelCols)
    (h3 : origRowNumCol ∉ excelCols) (h4 : excelCols.Nodup) :
    finalColsOnNoGroups (excelCols ++ [origRowNumCol]) =
      excelCols ++ [origRowNumCol, chargeEntryStatusCol, resultMessageCol] := by
  unfold finalColsOnNoGroups dedupKeepFirst
  rw [List.foldl_append]
  have hpre := dedupFold_extend (excelCols ++ [origRowNumCol]) []
    (by
      rw [List.nodup_append]
      refine ⟨h4, List.nodup_singleton _, ?_⟩
      intro x hx hx2
      rw [List.mem_singleton] at hx2
      exact h3 (hx2 ▸ hx))
    (by intro x _ hx2; simp at hx2)
  rw [List.nil_append] at hpre
  rw [hpre]
  simp only [List.foldl_cons, List.foldl_nil]
  have ho : origRowNumCol ∈ excelCols ++ [origRowNumCol] := by simp
  have hs : chargeEntryStatusCol ∉ excelCols ++ [origRowNumCol] := by
    simp only [List.mem_append, List.mem_singleton]
    push_neg
    exact ⟨h1, by decide⟩
  have hm : resultMessageCol ∉ (excelCols ++ [origRowNumCol]) ++ [chargeEntryStatusCol] := by
    simp only [List.mem_append, List.mem_singleton]
    push_neg
    exact ⟨⟨h2, by decide⟩, by decide⟩
  rw [if_pos ho, if_neg hs, if_neg hm]
  simp

theorem addToGroup_ne_nil (groups : List (GKey × GroupData)) (k : GKey) (idx : Nat)
    (row : Row) : addToGroup groups k idx row ≠ [] := by
  cases groups with
  | nil => simp [addToGroup]
  | cons p rest =>
    obtain ⟨kk, g⟩ := p
    simp only [addToGroup]
    split <;> simp

/-- Every grouping step either records a group or records a warning:
after processing any row the state has a group or a warning. -/
theorem groupStep_progress (env : Env) (st : GState) (row : Row) :
    (groupStep env st row).groups ≠ [] ∨ (groupStep env st row).warnings ≠ [] := by
  unfold groupStep
  split
  · right
    simp
  · left
    exact addToGroup_ne_nil st.groups _ _ row

theorem groupFold_progress (env : Env) (rows : List Row) :
    ∀ st : GState, (st.groups ≠ [] ∨ st.warnings ≠ []) →
    ((List.foldl (groupStep env) st rows).groups ≠ [] ∨
      (List.foldl (groupStep env) st rows).warnings ≠ []) := by
  induction rows with
  | nil => intro st h; exact h
  | cons r rest ih =>
    intro st _
    rw [List.foldl_cons]
    exact ih (groupStep env st r) (groupStep_progress env st r)

/-- A nonempty input never takes the early return: it leaves at least one
group or at least one grouping warning. -/
theorem groupRows_progress (env : Env) (r : Row) (rows : List Row) :
    (groupRows env (r :: rows)).groups ≠ [] ∨ (groupRows env (r :: rows)).warnings ≠ [] := by
  unfold groupRows
  rw [List.foldl_cons]
  exact groupFold_progress env rows (groupStep env ⟨[], [], [], [], []⟩ r)
    (groupStep_progress env ⟨[], [], [], [], []⟩ r)

/-- Claim C9 (amended): the result table always has exactly one row per
input row (in input order, by construction of the results list); for a
nonempty input the output columns are the input Excel columns plus
exactly the two appended result columns; but a zero-row input takes the
early return of lines 532-540, whose column list additionally retains
the internal row-number column — three appended columns, not two. -/
theorem C9_corrected (env : Env) (practiceId : Int) (rows : List Row)
    (excelCols : List String)
    (h1 : chargeEntryStatusCol ∉ excelCols) (h2 : resultMessageCol ∉ excelCols)
    (h3 : origRowNumCol ∉ excelCols) (h4 : excelCols.Nodup) :
    (process_excel_data env practiceId rows).results.length = rows.length ∧
    (rows ≠ [] →
      finalColumns env (excelCols ++ [origRowNumCol]) rows =
        excelCols ++ [chargeEntryStatusCol, resultMessageCol]) ∧
    (rows = [] →
      finalColumns env (excelCols ++ [origRowNumCol]) rows =
        excelCols ++ [origRowNumCol, chargeEntryStatusCol, resultMessageCol]) := by
  refine ⟨?_, ?_, ?_⟩
  · unfold process_excel_data
    dsimp only
    rw [processGroups_results_length]
    have := (groupFold_lengths env rows ⟨[], [], [], [], []⟩).1
    simpa [groupRows] using this
  · intro hne
    obtain ⟨r, rows2, hr⟩ := List.exists_cons_of_ne_nil hne
    subst hr
    simp only [finalColumns]
    have hp := groupRows_progress env r rows2
    have hcond : ((groupRows env (r :: rows2)).groups.isEmpty &&
        (groupRows env (r :: rows2)).warnings.isEmpty) = false := by
      rcases hp with hp | hp
      · cases hg : (groupRows env (r :: rows2)).groups with
        | nil => exact absurd hg hp
        | cons a l => rfl
      · cases hg : (groupRows env (r :: rows2)).warnings with
        | nil => exact absurd hg hp
        | cons a l => simp
    rw [hcond, if_neg (by simp)]
    exact outputColumnOrder_eq excelCols h1 h2 h3
  · intro he
    subst he
    simp only [finalColumns]
    have hc : ((groupRows env ([] : List Row)).groups.isEmpty &&
        (groupRows env ([] : List Row)).warnings.isEmpty) = true := rfl
    rw [hc, if_pos rfl]
    exact finalColsOnNoGroups_eq excelCols h1 h2 h3 h4

/-- Claim C9 counterexample: on a zero-row input (a headers-only
workbook) the early return keeps the internal row-number column, so the
output has three appended columns, not the claimed two. -/
theorem C9_counterexample :
    finalColumns testEnv ["Patient ID", "From Date", origRowNumCol] [] =
      ["Patient ID", "From Date", origRowNumCol, chargeEntryStatusCol, resultMessageCol] ∧
    finalColumns testEnv ["Patient ID", "From Date", origRowNumCol] [] ≠
      ["Patient ID", "From Date", chargeEntryStatusCol, resultMessageCol] := by
  constructor
  · decide
  · decide

/-- Claim C9 witness: the amended theorem applied to a concrete two-row
input and column list. -/
theorem C9_witness :
    (chargeEntryStatusCol ∉ ["Patient ID", "From Date"] ∧
      resultMessageCol ∉ ["Patient ID", "From Date"] ∧
      origRowNumCol ∉ ["Patient ID", "From Date"] ∧
      (["Patient ID", "From Date"] : List String).Nodup) ∧
    (process_excel_data testEnv 1 [baseRow, badDiagRow]).results.length = 2 ∧
    ([baseRow, badDiagRow] ≠ [] →
      finalColumns testEnv (["Patient ID", "From Date"] ++ [origRowNumCol])
          [baseRow, badDiagRow] =
        ["Patient ID", "From Date"] ++ [chargeEntryStatusCol, resultMessageCol]) ∧
    ([baseRow, badDiagRow] = [] →
      finalColumns testEnv (["Patient ID", "From Date"] ++ [origRowNumCol])
          [baseRow, badDiagRow] =
        ["Patient ID", "From Date"] ++
          [origRowNumCol, chargeEntryStatusCol, resultMessageCol]) :=
  ⟨⟨by decide, by decide, by decide, by decide⟩,
   C9_corrected testEnv 1 [baseRow, badDiagRow] ["Patient ID", "From Date"]
     (by decide) (by decide) (by decide) (by decide)⟩
